import Mathlib

/-!
A shallow embedding of the roster/standings ETL core of the
`yahoo-ff-data` repository (files `src/ff/get_team.py`,
`src/ff/get_standings.py`, `src/common.py`), together with theorems
settling the frozen claims about the Schema Normalizer, the Record
Extractor, the Nested Field Flattener, the Cross-Reference Filler and
the Incremental Merge Store.

Python/polars values are modelled by an inductive `Value` type
(mappings as association lists, 64-bit floats as rationals — none of
the verified claims depends on binary floating-point rounding, only on
values being carried, parsed or passed through).  A polars `DataFrame`
is a list of named, typed columns.  Fallible polars operations
(`with_columns` on a missing column, unsupported casts, vertical
concatenation of mismatched schemas) return `Except String`.
-/

namespace YahooFF

/-- A Python/polars cell value.  `dict` models a Python mapping (or a
polars struct) as an association list; `float` models a 64-bit float as
a rational, which is exact for every decimal literal appearing in the
data paths under verification. -/
inductive Value where
  | null : Value
  | str : String → Value
  | int : Int → Value
  | float : ℚ → Value
  | list : List Value → Value
  | dict : List (String × Value) → Value

/-- A polars column dtype, restricted to the dtypes reachable in the
embedded code paths. -/
inductive DType where
  | null : DType
  | utf8 : DType
  | int64 : DType
  | float64 : DType
  | listU : DType
  | struct : DType
  deriving Repr, DecidableEq

/-- One named, typed polars column. -/
structure Column where
  name : String
  dtype : DType
  values : List Value

/-- A polars DataFrame: an ordered list of columns. -/
structure DataFrame where
  cols : List Column

namespace DataFrame

/-- Column names, in order (`df.columns`). -/
def columns (df : DataFrame) : List String :=
  df.cols.map Column.name

/-- Whether a column of the given name exists. -/
def hasCol (df : DataFrame) (n : String) : Bool :=
  df.cols.any (fun c => c.name = n)

/-- The first column of the given name, if any (column names are unique
in every frame the embedded code builds). -/
def getCol (df : DataFrame) (n : String) : Option Column :=
  df.cols.find? (fun c => c.name = n)

/-- Values of the named column (empty when absent). -/
def colValues (df : DataFrame) (n : String) : List Value :=
  match df.getCol n with
  | some c => c.values
  | none => []

/-- Dtype of the named column (`DType.null` when absent). -/
def dtypeOf (df : DataFrame) (n : String) : DType :=
  match df.getCol n with
  | some c => c.dtype
  | none => DType.null

/-- Row count, read off the first column (0 for a column-less frame). -/
def height (df : DataFrame) : Nat :=
  match df.cols with
  | [] => 0
  | c :: _ => c.values.length

/-- The (name, dtype) schema, in column order. -/
def schema (df : DataFrame) : List (String × DType) :=
  df.cols.map (fun c => (c.name, c.dtype))

/-- All columns have the same length (polars invariant). -/
def Wf (df : DataFrame) : Prop :=
  ∀ c ∈ df.cols, c.values.length = df.height

end DataFrame

/-- Python truthiness of a `Value` (`bool(v)`): `None`, `""`, `0`,
empty sequences and empty mappings are falsy. -/
def truthy : Value → Bool
  | Value.null => false
  | Value.str s => s ≠ ""
  | Value.int n => n ≠ 0
  | Value.float q => q ≠ 0
  | Value.list vs => !vs.isEmpty
  | Value.dict d => !d.isEmpty

/-- Python `x₁ or x₂ or ... or xₙ`: the first truthy operand, else the
last operand (`Value.null` for the empty chain, which never occurs). -/
def pyOr : List Value → Value
  | [] => Value.null
  | [v] => v
  | v :: vs => if truthy v then v else pyOr vs

/-- Python `item.get(k)` on a mapping: the mapped value, or `None` when
the key is absent. -/
def dictGet (r : List (String × Value)) (k : String) : Value :=
  match r.lookup k with
  | some v => v
  | none => Value.null

/-- Record Extractor, `player` field (src/ff/get_team.py:263-264):
`item.get("player_key") or item.get("playerKey") or
item.get("player_id") or item.get("id")`. -/
def extractPlayer (item : List (String × Value)) : Value :=
  pyOr [dictGet item "player_key", dictGet item "playerKey",
        dictGet item "player_id", dictGet item "id"]

/-- Record Extractor, `name` field (src/ff/get_team.py:265-266). -/
def extractName (item : List (String × Value)) : Value :=
  pyOr [dictGet item "name", dictGet item "full_name", dictGet item "player_name"]

/-- Record Extractor, `positions` field (src/ff/get_team.py:267-268). -/
def extractPositions (item : List (String × Value)) : Value :=
  pyOr [dictGet item "eligible_positions", dictGet item "positions",
        dictGet item "position"]

/-- Digit run to a natural number (`none` when empty or non-digit). -/
def digitsToNat (cs : List Char) : Option Nat :=
  if cs.isEmpty then none
  else if cs.all Char.isDigit then
    some (cs.foldl (fun n c => 10 * n + (c.toNat - 48)) 0)
  else none

/-- The polars `Utf8 → Int64` value conversion: an optional sign followed
by digits; anything else fails (and becomes null under `strict=False`). -/
def parseIntStr (s : String) : Option Int :=
  match s.data with
  | [] => none
  | '-' :: rest => (digitsToNat rest).map (fun n => -(n : Int))
  | cs => (digitsToNat cs).map (fun n => (n : Int))

/-- The polars `Utf8 → Float64` value conversion, modelled on plain
decimal notation (optional sign, digits, optional fractional part) —
exact for every numeric string on the verified data paths. -/
def parseFloatStr (s : String) : Option ℚ :=
  let core : List Char → Option ℚ := fun cs =>
    match cs.dropWhile (fun c => c ≠ '.') with
    | [] => (digitsToNat cs).map (fun n => (n : ℚ))
    | _ :: frac =>
      match digitsToNat (cs.takeWhile (fun c => c ≠ '.')), digitsToNat frac with
      | some n, some m => some ((n : ℚ) + (m : ℚ) / (10 : ℚ) ^ frac.length)
      | _, _ => none
  match s.data with
  | '-' :: rest => (core rest).map (fun q => -q)
  | cs => core cs

/-- Decimal rendering of a float value (`str()` / polars `Float64 → Utf8`);
integral floats render as in Python (`1.0`).  No verified claim depends
on the rendering of a non-integral float. -/
def floatRepr (q : ℚ) : String :=
  if q.den = 1 then toString q.num ++ ".0" else toString q

mutual

/-- Python `str(x)`, to the fidelity the claims need: exact on `None`,
strings and integers (the only shapes reaching `str` on the verified
paths); floats use `floatRepr`; nested sequences/mappings are rendered
structurally (Python would additionally quote their string elements). -/
def pyStr : Value → String
  | Value.null => "None"
  | Value.str s => s
  | Value.int n => toString n
  | Value.float q => floatRepr q
  | Value.list vs => "[" ++ String.intercalate ", " (pyStrList vs) ++ "]"
  | Value.dict d => "\x7b" ++ String.intercalate ", " (pyStrDict d) ++ "\x7d"

def pyStrList : List Value → List String
  | [] => []
  | v :: vs => pyStr v :: pyStrList vs

def pyStrDict : List (String × Value) → List String
  | [] => []
  | (k, v) :: ds => (k ++ ": " ++ pyStr v) :: pyStrDict ds

end

/-- Whether a dtype is one of the scalar dtypes every polars cast on the
embedded paths supports as a source. -/
def scalarD (t : DType) : Bool :=
  t = DType.utf8 || t = DType.int64 || t = DType.float64

/-- Whether `cast` from dtype `f` to dtype `t` is supported at all
(polars raises on e.g. `List → Utf8` even with `strict=False`). -/
def castOk (f t : DType) : Bool :=
  f = DType.null || f = t || (scalarD f && scalarD t)

/-- Python `int(x)` truncation, used only where a digit-string guard has
already passed. -/
def pyIntOf : Value → Int
  | Value.int n => n
  | Value.float q => q.num / (q.den : Int)
  | Value.str s => (parseIntStr s).getD 0
  | _ => 0

/-- Per-value `cast(..., strict=False)` conversion: a value that cannot
be coerced becomes null. -/
def castValueF (t : DType) (v : Value) : Value :=
  match t, v with
  | _, Value.null => Value.null
  | DType.utf8, Value.str s => Value.str s
  | DType.utf8, Value.int n => Value.str (toString n)
  | DType.utf8, Value.float q => Value.str (floatRepr q)
  | DType.int64, Value.int n => Value.int n
  | DType.int64, Value.float q => Value.int (q.num / (q.den : Int))
  | DType.int64, Value.str s =>
    match parseIntStr s with
    | some n => Value.int n
    | none => Value.null
  | DType.float64, Value.float q => Value.float q
  | DType.float64, Value.int n => Value.float (n : ℚ)
  | DType.float64, Value.str s =>
    match parseFloatStr s with
    | some q => Value.float q
    | none => Value.null
  | _, _ => Value.null

/-- Cast a whole column (`strict=False`), setting its dtype. -/
def castColF (t : DType) (c : Column) : Column :=
  ⟨c.name, t, c.values.map (castValueF t)⟩

/-- Whether a value is null. -/
def isNullV : Value → Bool
  | Value.null => true
  | _ => false

/-- Polars `Series` dtype inference over plain Python values, to the
granularity the embedded paths need: homogeneous scalars (with ints
promoted among floats) infer their dtype, anything mixed or nested
fails (polars would raise there, or produce a nested dtype that the
following cast rejects — the embedded code paths treat both as the
same caught failure). -/
def inferD (vs : List Value) : Option DType :=
  if vs.all (fun v => isNullV v) then some DType.null
  else if vs.all (fun v => match v with | Value.null => true | Value.str _ => true | _ => false) then
    some DType.utf8
  else if vs.all (fun v => match v with | Value.null => true | Value.int _ => true | _ => false) then
    some DType.int64
  else if vs.all (fun v => match v with | Value.null => true | Value.int _ => true | Value.float _ => true | _ => false) then
    some DType.float64
  else none

/-- Build the column produced by `.map_elements(f)` on the given source
values: the output dtype is inferred from the mapped values. -/
def mapElementsCol (f : Value → Value) (n : String) (src : List Value) : Except String Column :=
  let out := src.map f
  match inferD out with
  | some d => Except.ok ⟨n, d, out⟩
  | none => Except.error ("ComputeError: map_elements dtype for " ++ n)

namespace DataFrame

/-- `with_columns` of one named expression result: replace an existing
column of that name in place, else append at the end. -/
def withCol (df : DataFrame) (c : Column) : DataFrame :=
  if df.hasCol c.name then
    ⟨df.cols.map (fun d => if d.name = c.name then c else d)⟩
  else ⟨df.cols ++ [c]⟩

/-- `drop` one column by name. -/
def dropCol (df : DataFrame) (n : String) : DataFrame :=
  ⟨df.cols.filter (fun c => c.name ≠ n)⟩

/-- `rename` one column. -/
def renameCol (df : DataFrame) (old new : String) : DataFrame :=
  ⟨df.cols.map (fun c => if c.name = old then ⟨new, c.dtype, c.values⟩ else c)⟩

/-- `select` of an explicit column list; polars raises when a requested
column is missing. -/
def selectCols (ns : List String) (df : DataFrame) : Except String DataFrame :=
  match ns.find? (fun n => !df.hasCol n) with
  | some n => Except.error ("ColumnNotFoundError: " ++ n)
  | none => Except.ok ⟨ns.filterMap (fun n => df.getCol n)⟩

/-- Vertical `pl.concat`: requires identical schemas (names, order and
dtypes), then appends rows. -/
def vconcat (a b : DataFrame) : Except String DataFrame :=
  if a.schema = b.schema then
    Except.ok ⟨List.zipWith (fun c d => ⟨c.name, c.dtype, c.values ++ d.values⟩) a.cols b.cols⟩
  else Except.error "SchemaError: vertical concat of differing schemas"

end DataFrame

/-- The canonical roster column list (src/ff/get_team.py:402-411), in
declared order. -/
def colsTP : List String :=
  ["team_key", "team_name", "player",
   "player_positions", "week", "team_position", "points",
   "player_id", "player_name", "player_status", "position_type",
   "eligible_positions", "selected_position",
   "player_full_name", "primary_position",
   "pass_yds", "pass_td", "interceptions",
   "rush_att", "rush_yds", "rush_td",
   "rec", "rec_yds", "rec_td", "targets", "fum_lost", "total_points"]

/-- The typed-null replacement dtype for a canonical column whose values
are all null (src/ff/get_team.py:431-441). -/
def nullReplacementD (n : String) : DType :=
  if n = "week" then DType.int64
  else if n = "points" then DType.float64
  else DType.utf8

/-- The cast targets of the final `with_columns` block of the normalizer
(src/ff/get_team.py:482-525), in source order.  Note that this list
includes `player_metadata` and `player_stats`, which are NOT in
`colsTP`. -/
def castTargetsTP : List (String × DType) :=
  [("team_key", DType.utf8), ("team_name", DType.utf8), ("player", DType.utf8),
   ("player_positions", DType.utf8), ("player_id", DType.utf8),
   ("player_name", DType.utf8), ("player_status", DType.utf8),
   ("position_type", DType.utf8), ("eligible_positions", DType.utf8),
   ("selected_position", DType.utf8), ("player_metadata", DType.utf8),
   ("player_stats", DType.utf8), ("player_full_name", DType.utf8),
   ("primary_position", DType.utf8),
   ("pass_yds", DType.float64), ("pass_td", DType.float64),
   ("interceptions", DType.float64), ("rush_att", DType.float64),
   ("rush_yds", DType.float64), ("rush_td", DType.float64),
   ("rec", DType.float64), ("rec_yds", DType.float64), ("rec_td", DType.float64),
   ("targets", DType.float64), ("fum_lost", DType.float64),
   ("total_points", DType.float64),
   ("team_position", DType.utf8), ("week", DType.int64), ("points", DType.float64)]

/-- The declared canonical schema: each column of `colsTP` with the
dtype the final cast block assigns it. -/
def canonSchemaTP : List (String × DType) :=
  [("team_key", DType.utf8), ("team_name", DType.utf8), ("player", DType.utf8),
   ("player_positions", DType.utf8), ("week", DType.int64),
   ("team_position", DType.utf8), ("points", DType.float64),
   ("player_id", DType.utf8), ("player_name", DType.utf8),
   ("player_status", DType.utf8), ("position_type", DType.utf8),
   ("eligible_positions", DType.utf8), ("selected_position", DType.utf8),
   ("player_full_name", DType.utf8), ("primary_position", DType.utf8),
   ("pass_yds", DType.float64), ("pass_td", DType.float64),
   ("interceptions", DType.float64), ("rush_att", DType.float64),
   ("rush_yds", DType.float64), ("rush_td", DType.float64),
   ("rec", DType.float64), ("rec_yds", DType.float64), ("rec_td", DType.float64),
   ("targets", DType.float64), ("fum_lost", DType.float64),
   ("total_points", DType.float64)]

/-- Step 1 of the normalizer (src/ff/get_team.py:412-415): add every
canonical column absent from the batch as an all-null (`Null`-typed)
column; `with_columns` appends them at the end, in `colsTP` order. -/
def addMissingCols (df : DataFrame) : DataFrame :=
  ⟨df.cols ++ (colsTP.filter (fun n => !df.hasCol n)).map
      (fun n => ⟨n, DType.null, List.replicate df.height Value.null⟩)⟩

/-- Step 2 of the normalizer (src/ff/get_team.py:425-441): replace every
`Null`-typed canonical column by a typed null series of the frame's
height. -/
def typeNullFun (h : Nat) (c : Column) : Column :=
  if colsTP.contains c.name && c.dtype = DType.null then
    ⟨c.name, nullReplacementD c.name, List.replicate h Value.null⟩
  else c

def typeNullCols (df : DataFrame) : DataFrame :=
  ⟨df.cols.map (typeNullFun df.height)⟩

/-- One materialized value of the list-to-string conversion
(src/ff/get_team.py:448-455): sequences become the comma-join of their
stringified elements, null passes through, scalars become `str(v)`. -/
def materializeValue : Value → Value
  | Value.list vs => Value.str (String.intercalate "," (vs.map pyStr))
  | Value.null => Value.null
  | v => Value.str (pyStr v)

/-- Step 3 of the normalizer for one column name
(src/ff/get_team.py:443-479): when the column exists, materialize every
value and re-type the column as `Utf8`. -/
def materializeCol (n : String) (df : DataFrame) : DataFrame :=
  match df.getCol n with
  | none => df
  | some c =>
    ⟨df.cols.map (fun d =>
      if d.name = n then ⟨n, DType.utf8, c.values.map materializeValue⟩ else d)⟩

/-- The per-column action of the final cast block: cast when the column
is a cast target, leave alone otherwise. -/
def bigCastFun (c : Column) : Column :=
  match castTargetsTP.lookup c.name with
  | some t => castColF t c
  | none => c

/-- Step 4 of the normalizer (src/ff/get_team.py:482-525): the single
`with_columns` that casts every `castTargetsTP` column (all expressions
are resolved against the incoming frame; a missing column or an
unsupported source dtype raises). -/
def bigCast (df : DataFrame) : Except String DataFrame :=
  match castTargetsTP.find? (fun p => !df.hasCol p.1) with
  | some p => Except.error ("ColumnNotFoundError: " ++ p.1)
  | none =>
    match castTargetsTP.find? (fun p => !castOk (df.dtypeOf p.1) p.2) with
    | some p => Except.error ("InvalidOperationError: cast of " ++ p.1)
    | none => Except.ok ⟨df.cols.map bigCastFun⟩

/-- Python `==` on the values used as dictionary keys here (numeric
values compare across int/float as in Python; nested values never serve
as team keys, so they are compared coarsely). -/
def pyEqScalar : Value → Value → Bool
  | Value.null, Value.null => true
  | Value.str a, Value.str b => a = b
  | Value.int a, Value.int b => a = b
  | Value.float a, Value.float b => a = b
  | Value.int a, Value.float b => (a : ℚ) = b
  | Value.float a, Value.int b => a = (b : ℚ)
  | _, _ => false

/-- Last-occurrence-wins association lookup, the model of the Python
dict comprehension over `zip(keys, names)` followed by `.get`
(src/ff/get_team.py:546-549). -/
def lookupLast (pairs : List (Value × Value)) (k : Value) : Option Value :=
  ((pairs.filter (fun p => pyEqScalar p.1 k)).getLast?).map Prod.snd

/-- The per-column action of the `team_name` fill: nulls take the
mapped name, non-null values stay. -/
def fillNameFun (mappedU : List Value) (c : Column) : Column :=
  if c.name = "team_name" then
    ⟨c.name, c.dtype,
     List.zipWith (fun old m => if isNullV old then m else old) c.values mappedU⟩
  else c

/-- Step 5, the Cross-Reference Filler (src/ff/get_team.py:527-561):
when some `team_name` is null and the standings reference frame is
readable and exposes a recognizable key/name column pair, map each
row's `team_key` through the key-to-name mapping and fill only the null
`team_name` values; every failure mode (reference missing or
unreadable, no recognizable pair, un-buildable mapped series) is caught
and leaves the frame unchanged. -/
def fillTeamName (standings : Option DataFrame) (df : DataFrame) : DataFrame :=
  if !(df.hasCol "team_name") || !(df.hasCol "team_key") then df
  else if (df.colValues "team_name").countP (fun v => isNullV v) = 0 then df
  else
    match standings with
    | none => df
    | some s =>
      let keyCol : Option String :=
        if s.hasCol "team_key" then some "team_key"
        else if s.hasCol "teamKey" then some "teamKey" else none
      let nameCol : Option String :=
        if s.hasCol "Team" then some "Team"
        else if s.hasCol "name" then some "name" else none
      match keyCol, nameCol with
      | some kc, some nc =>
        let mapping := (s.colValues kc).zip (s.colValues nc)
        let mapped := (df.colValues "team_key").map
          (fun k => (lookupLast mapping k).getD Value.null)
        match inferD mapped with
        | none => df
        | some d =>
          if castOk d DType.utf8 then
            ⟨df.cols.map (fillNameFun (mapped.map (castValueF DType.utf8)))⟩
          else df
      | _, _ => df

/-- The Schema Normalizer, `_normalize_team_players_df`
(src/ff/get_team.py:397-573): add missing canonical columns, type the
null columns, materialize the two positions columns, cast everything in
`castTargetsTP`, fill `team_name` from the standings reference, and
select exactly the canonical column list.  The standings argument
stands for the `Data/standings.parquet` read: `none` models a missing
or unreadable file. -/
def _normalize_team_players_df (standings : Option DataFrame) (df : DataFrame) :
    Except String DataFrame :=
  match bigCast (materializeCol "eligible_positions"
      (materializeCol "player_positions" (typeNullCols (addMissingCols df)))) with
  | Except.error e => Except.error e
  | Except.ok df5 => DataFrame.selectCols colsTP (fillTeamName standings df5)

/-- State of the persisted `Data/team_players.parquet` store at the
start of a `get_team` run. -/
inductive StoreState where
  | absent : StoreState
  | unreadable : StoreState
  | readable : DataFrame → StoreState

/-- Observable outcome of the store-append portion of `get_team`:
what (if anything) was written to `Data/team_players.parquet`, and
whether an exception escaped `get_team` to its caller. -/
structure MergeOutcome where
  written : Option DataFrame
  raised : Bool

/-- The Incremental Merge Store: the store-append portion of `get_team`
(src/ff/get_team.py:122-167).  The whole block sits inside a broad
`try/except` whose handler only debug-logs, so no failure in it ever
escapes `get_team`.  A failing read of an existing store, and a failing
vertical concat, therefore abort the write silently; a failing
normalization falls back to the unnormalized frame. -/
def mergeTeamPlayers (store : StoreState) (standings : Option DataFrame)
    (roster_df : Option DataFrame) : MergeOutcome :=
  match roster_df with
  | none => ⟨none, false⟩
  | some df =>
    if 0 < df.height then
      let nd := match _normalize_team_players_df standings df with
        | Except.ok d => d
        | Except.error _ => df
      match store with
      | StoreState.absent => ⟨some nd, false⟩
      | StoreState.unreadable => ⟨none, false⟩
      | StoreState.readable ex =>
        let ex2 := match _normalize_team_players_df standings ex with
          | Except.ok d => d
          | Except.error _ => ex
        match DataFrame.vconcat ex2 nd with
        | Except.ok comb => ⟨some comb, false⟩
        | Except.error _ => ⟨none, false⟩
    else ⟨none, false⟩

/-- `str(x).isdigit()` for the values reaching the streak-length guard:
a nonempty all-digit rendering. -/
def strIsdigit (s : String) : Bool :=
  !s.isEmpty && s.data.all Char.isDigit

/-- The streak-kind lambda (src/ff/get_standings.py:64-69): `s[0]` for a
nonempty sequence, `s.get("type")` for a mapping, else null (nulls are
passed through by `map_elements`). -/
def streakTypeF : Value → Value
  | Value.list (v :: _) => v
  | Value.list [] => Value.null
  | Value.dict d => dictGet d "type"
  | _ => Value.null

/-- The streak-length lambda (src/ff/get_standings.py:70-76):
`int(s[1])` when a sequence's second element renders as digits,
`int(s.get("value"))` when a mapping's value renders as digits, else
null. -/
def streakLenF : Value → Value
  | Value.list l =>
    match l.get? 1 with
    | some v => if strIsdigit (pyStr v) then Value.int (pyIntOf v) else Value.null
    | none => Value.null
  | Value.dict d =>
    let v := dictGet d "value"
    if strIsdigit (pyStr v) then Value.int (pyIntOf v) else Value.null
  | _ => Value.null

/-- ASCII lowercasing (`str.to_lowercase`), written over the character
list so that it evaluates by reduction. -/
def strLower (s : String) : String :=
  String.mk (s.data.map Char.toLower)

/-- The streak-letter `when/then/otherwise` over one `StreakType` value
(src/ff/get_standings.py:80-83): `W` for case-insensitive `win`, `L`
for `loss`, otherwise the raw kind with null filled to the empty
string. -/
def streakLetter : Value → Value
  | Value.str s =>
    if strLower s = "win" then Value.str "W"
    else if strLower s = "loss" then Value.str "L"
    else Value.str s
  | _ => Value.str ""

/-- String concatenation of two `Utf8` cells (polars `+`). -/
def concatStrV : Value → Value → Value
  | Value.str a, Value.str b => Value.str (a ++ b)
  | _, _ => Value.null

/-- The compact streak string the stage produces for one raw `Streak`
value: letter plus length with null length filled to the empty string
(src/ff/get_standings.py:85-89). -/
def streakFlat (v : Value) : Value :=
  concatStrV (streakLetter (castValueF DType.utf8 (streakTypeF v)))
    (match castValueF DType.utf8 (streakLenF v) with
     | Value.null => Value.str ""
     | u => u)

/-- The streak-flattening stage of `transform_standings`
(src/ff/get_standings.py:62-92): decode `StreakType`/`StreakLen`,
build the compact string, drop the nested and temporary columns, and
rename the compact string to `Streak`. -/
def streakStage (df : DataFrame) : Except String DataFrame :=
  if !df.hasCol "Streak" then Except.ok df
  else
    match mapElementsCol streakTypeF "StreakType" (df.colValues "Streak") with
    | Except.error e => Except.error e
    | Except.ok stC =>
      match mapElementsCol streakLenF "StreakLen" (df.colValues "Streak") with
      | Except.error e => Except.error e
      | Except.ok slC =>
        let df1 := (df.withCol (castColF DType.utf8 stC)).withCol
          (castColF DType.int64 slC)
        let letterVals := (df1.colValues "StreakType").map streakLetter
        let df2 := df1.withCol ⟨"_StreakLetter", DType.utf8, letterVals⟩
        let strVals := List.zipWith
          (fun l n => concatStrV l
            (match castValueF DType.utf8 n with
             | Value.null => Value.str ""
             | u => u))
          (df2.colValues "_StreakLetter") (df2.colValues "StreakLen")
        let df3 := df2.withCol ⟨"StreakStr", DType.utf8, strVals⟩
        Except.ok (((df3.dropCol "Streak").dropCol "_StreakLetter").renameCol
          "StreakStr" "Streak")

/-- One field of the `outcome_totals` lambdas
(src/ff/get_standings.py:97-104): the mapping key for a dict, the
positional element for a sequence, else null. -/
def otField (idx : Nat) (key : String) : Value → Value
  | Value.dict d => dictGet d key
  | Value.list l => (l.get? idx).getD Value.null
  | _ => Value.null

/-- The per-column action of the `WinPct` fill from decoded
percentages: null `WinPct` cells take the decoded value, others stay. -/
def winPctFillFun (fromT : List Value) (c : Column) : Column :=
  if c.name = "WinPct" then
    ⟨c.name, c.dtype,
     List.zipWith (fun w p => if isNullV w then p else w) c.values fromT⟩
  else c

/-- The outcome-totals flattening stage of `transform_standings`
(src/ff/get_standings.py:95-121): extract wins/losses/ties/percentage,
cast them (`strict=False`) to `Int64`/`Float64`, drop the nested
column, and fill `WinPct` from the decoded percentage only where it is
null (or install it outright when the frame has no `WinPct`). -/
def outcomeStage (df : DataFrame) : Except String DataFrame :=
  if !df.hasCol "outcome_totals" then Except.ok df
  else
    match mapElementsCol (otField 0 "wins") "wins" (df.colValues "outcome_totals") with
    | Except.error e => Except.error e
    | Except.ok winsC =>
      match mapElementsCol (otField 1 "losses") "losses" (df.colValues "outcome_totals") with
      | Except.error e => Except.error e
      | Except.ok lossesC =>
        match mapElementsCol (otField 2 "ties") "ties" (df.colValues "outcome_totals") with
        | Except.error e => Except.error e
        | Except.ok tiesC =>
          match mapElementsCol (otField 3 "percentage") "percentage"
              (df.colValues "outcome_totals") with
          | Except.error e => Except.error e
          | Except.ok pctC =>
            let df1 := (((df.withCol winsC).withCol lossesC).withCol tiesC).withCol pctC
            let df2 := (((df1.withCol (castColF DType.int64 winsC)).withCol
                (castColF DType.int64 lossesC)).withCol
                (castColF DType.int64 tiesC)).withCol
                ⟨"WinPctFromTotals", DType.float64,
                 pctC.values.map (castValueF DType.float64)⟩
            let df3 := df2.dropCol "outcome_totals"
            if df3.hasCol "WinPct" then
              Except.ok ((DataFrame.mk (df3.cols.map
                (winPctFillFun (df3.colValues "WinPctFromTotals")))).dropCol
                  "WinPctFromTotals")
            else
              Except.ok (df3.renameCol "WinPctFromTotals" "WinPct")

/-- A raw roster week value as passed into `roster_to_rows`. -/
def weekValue : Option Int → Value
  | none => Value.null
  | some n => Value.int n

/-- The Record Extractor for one roster item (src/ff/get_team.py:258-388,
without the per-player network enrichment, which is skipped when no
session is available): a mapping is resolved through the ordered alias
chains; a bare string becomes the `player` identity field with the
other roster fields null; any other shape stores its rendering in
`player`.  The returned association list carries the row keys in their
Python insertion order. -/
def rosterItemRow (team_key : String) (team_name : Value) (roster_week : Option Int)
    (item : Value) : List (String × Value) :=
  let base := [("team_key", Value.str team_key), ("team_name", team_name)]
  match item with
  | Value.dict d =>
    let player := extractPlayer d
    let name := extractName d
    let positions := extractPositions d
    let week := pyOr [dictGet d "week", dictGet d "week_number", weekValue roster_week]
    let team_position := pyOr [dictGet d "selected_position",
      dictGet d "lineup_position", dictGet d "slot"]
    let points := pyOr [dictGet d "points", dictGet d "projected_points",
      dictGet d "season_points"]
    base ++
      [("player", pyOr [player, name]), ("player_positions", positions),
       ("week", week), ("team_position", team_position), ("points", points),
       ("player_id", pyOr [player, Value.null]),
       ("player_name", pyOr [name, Value.null]),
       ("player_status", pyOr [dictGet d "status", dictGet d "injury_status", Value.null]),
       ("position_type", pyOr [dictGet d "position_type", Value.null]),
       ("eligible_positions", positions),
       ("selected_position", pyOr [dictGet d "selected_position",
          dictGet d "selectedPos", Value.null]),
       ("player_metadata", Value.null), ("player_stats", Value.null),
       ("player_full_name", Value.null), ("primary_position", Value.null),
       ("pass_yds", Value.null), ("pass_td", Value.null),
       ("interceptions", Value.null), ("rush_att", Value.null),
       ("rush_yds", Value.null), ("rush_td", Value.null),
       ("rec", Value.null), ("rec_yds", Value.null), ("rec_td", Value.null),
       ("targets", Value.null), ("fum_lost", Value.null),
       ("total_points", Value.null)]
  | Value.str s =>
    base ++
      [("player", Value.str s), ("player_positions", Value.null),
       ("week", Value.null), ("team_position", Value.null), ("points", Value.null)]
  | v =>
    base ++
      [("player", Value.str (pyStr v)), ("player_positions", Value.null),
       ("week", Value.null), ("team_position", Value.null), ("points", Value.null)]

/-- `roster_to_rows` (src/ff/get_team.py:210-394) at the row level: an
absent or empty roster yields no frame at all (`None`); otherwise one
row per roster item.  (The resolved `team_name` is taken as an
argument; its standings fallback lookup is a separate concern of lines
220-241.) -/
def roster_to_rows (team_key : String) (team_name : Value) (roster : List Value)
    (roster_week : Option Int) : Option (List (List (String × Value))) :=
  if roster.isEmpty then none
  else some (roster.map (rosterItemRow team_key team_name roster_week))

/-! ### Generic frame lemmas -/

theorem DataFrame.getCol_name {df : DataFrame} {n : String} {c : Column}
    (h : df.getCol n = some c) : c.name = n := by
  have := List.find?_some h
  simpa using this

theorem DataFrame.hasCol_eq_isSome (df : DataFrame) (n : String) :
    df.hasCol n = (df.getCol n).isSome := by
  unfold DataFrame.hasCol DataFrame.getCol
  induction df.cols with
  | nil => rfl
  | cons c cs ih =>
    by_cases h : c.name = n <;> simp [List.find?_cons, h, ih]

theorem DataFrame.getCol_isSome_of_hasCol {df : DataFrame} {n : String}
    (h : df.hasCol n = true) : (df.getCol n).isSome := by
  rw [DataFrame.hasCol_eq_isSome] at h; exact h

theorem DataFrame.getCol_eq_none_of_not_hasCol {df : DataFrame} {n : String}
    (h : df.hasCol n = false) : df.getCol n = none := by
  rw [DataFrame.hasCol_eq_isSome] at h
  cases hc : df.getCol n with
  | none => rfl
  | some c => rw [hc] at h; simp at h

theorem DataFrame.getCol_mapCols (f : Column → Column)
    (hf : ∀ c, (f c).name = c.name) (df : DataFrame) (n : String) :
    DataFrame.getCol ⟨df.cols.map f⟩ n = (df.getCol n).map f := by
  unfold DataFrame.getCol
  rw [List.find?_map]
  have hp : ((fun c => decide (c.name = n)) ∘ f) = (fun c => decide (c.name = n)) := by
    funext c
    simp [hf c]
  rw [hp]

theorem DataFrame.hasCol_mapCols (f : Column → Column)
    (hf : ∀ c, (f c).name = c.name) (df : DataFrame) (n : String) :
    DataFrame.hasCol ⟨df.cols.map f⟩ n = df.hasCol n := by
  rw [DataFrame.hasCol_eq_isSome, DataFrame.hasCol_eq_isSome,
    DataFrame.getCol_mapCols f hf]
  cases df.getCol n <;> rfl

theorem DataFrame.dtypeOf_mapCols (f : Column → Column)
    (hf : ∀ c, (f c).name = c.name) (hd : ∀ c, (f c).dtype = c.dtype)
    (df : DataFrame) (n : String) :
    DataFrame.dtypeOf ⟨df.cols.map f⟩ n = df.dtypeOf n := by
  unfold DataFrame.dtypeOf
  rw [DataFrame.getCol_mapCols f hf]
  cases df.getCol n with
  | none => rfl
  | some c => simp [hd c]

theorem DataFrame.colValues_mapCols (f : Column → Column)
    (hf : ∀ c, (f c).name = c.name) (df : DataFrame) (n : String) :
    DataFrame.colValues ⟨df.cols.map f⟩ n = ((df.getCol n).map f).elim [] Column.values := by
  unfold DataFrame.colValues
  rw [DataFrame.getCol_mapCols f hf]
  cases df.getCol n <;> rfl

theorem List.find?_str_self (l : List String) (n : String) :
    l.find? (fun m => m = n) = if n ∈ l then some n else none := by
  induction l with
  | nil => simp
  | cons a l ih =>
    by_cases h : a = n
    · subst h; simp
    · rw [List.find?_cons_of_neg _ (by simpa using h), ih]
      have hna : ¬ n = a := fun hh => h hh.symm
      simp [hna]

/-! ### The normalizer stages: presence and dtypes -/

theorem addMissingCols_getCol_of_hasCol {df : DataFrame} {n : String}
    (h : df.hasCol n = true) : (addMissingCols df).getCol n = df.getCol n := by
  unfold addMissingCols DataFrame.getCol
  rw [List.find?_append]
  obtain ⟨c, hc⟩ := Option.isSome_iff_exists.mp (DataFrame.getCol_isSome_of_hasCol h)
  unfold DataFrame.getCol at hc
  rw [hc]
  rfl

theorem addMissingCols_getCol_of_absent {df : DataFrame} {n : String}
    (h : df.hasCol n = false) (hmem : n ∈ colsTP) :
    (addMissingCols df).getCol n =
      some ⟨n, DType.null, List.replicate df.height Value.null⟩ := by
  unfold addMissingCols DataFrame.getCol
  rw [List.find?_append]
  have h1 : df.cols.find? (fun c => c.name = n) = none := by
    have := DataFrame.getCol_eq_none_of_not_hasCol h
    unfold DataFrame.getCol at this
    exact this
  rw [h1, Option.none_or, List.find?_map]
  have hp : ((fun c : Column => decide (c.name = n)) ∘
      (fun m => (⟨m, DType.null, List.replicate df.height Value.null⟩ : Column))) =
      (fun m : String => decide (m = n)) := by
    funext m; rfl
  rw [hp, List.find?_str_self]
  simp [List.mem_filter, hmem, h]

theorem addMissingCols_hasCol_of_absent_notTP {df : DataFrame} {n : String}
    (h : df.hasCol n = false) (hmem : n ∉ colsTP) :
    (addMissingCols df).hasCol n = false := by
  rw [DataFrame.hasCol_eq_isSome]
  unfold addMissingCols DataFrame.getCol
  rw [List.find?_append]
  have h1 : df.cols.find? (fun c => c.name = n) = none := by
    have := DataFrame.getCol_eq_none_of_not_hasCol h
    unfold DataFrame.getCol at this
    exact this
  rw [h1, Option.none_or, List.find?_map]
  have hp : ((fun c : Column => decide (c.name = n)) ∘
      (fun m => (⟨m, DType.null, List.replicate df.height Value.null⟩ : Column))) =
      (fun m : String => decide (m = n)) := by
    funext m; rfl
  rw [hp, List.find?_str_self]
  simp [List.mem_filter, hmem]

theorem addMissingCols_hasCol_of_TP {df : DataFrame} {n : String}
    (hmem : n ∈ colsTP) : (addMissingCols df).hasCol n = true := by
  cases h : df.hasCol n with
  | true =>
    rw [DataFrame.hasCol_eq_isSome, addMissingCols_getCol_of_hasCol h]
    exact DataFrame.getCol_isSome_of_hasCol h
  | false =>
    rw [DataFrame.hasCol_eq_isSome, addMissingCols_getCol_of_absent h hmem]
    rfl

theorem addMissingCols_hasCol_of_hasCol {df : DataFrame} {n : String}
    (h : df.hasCol n = true) : (addMissingCols df).hasCol n = true := by
  rw [DataFrame.hasCol_eq_isSome, addMissingCols_getCol_of_hasCol h]
  exact DataFrame.getCol_isSome_of_hasCol h

theorem typeNullFun_name (h : Nat) (c : Column) : (typeNullFun h c).name = c.name := by
  unfold typeNullFun; split <;> rfl

theorem typeNullCols_hasCol (df : DataFrame) (n : String) :
    (typeNullCols df).hasCol n = df.hasCol n :=
  DataFrame.hasCol_mapCols _ (typeNullFun_name df.height) df n

theorem typeNullCols_getCol (df : DataFrame) (n : String) :
    (typeNullCols df).getCol n = (df.getCol n).map (typeNullFun df.height) :=
  DataFrame.getCol_mapCols _ (typeNullFun_name df.height) df n

theorem materializeFun_name (m : String) (vals : List Value) (d : Column) :
    (if d.name = m then (⟨m, DType.utf8, vals⟩ : Column) else d).name = d.name := by
  split <;> simp_all

theorem materializeCol_hasCol (m : String) (df : DataFrame) (n : String) :
    (materializeCol m df).hasCol n = df.hasCol n := by
  unfold materializeCol
  cases h : df.getCol m with
  | none => rfl
  | some c =>
    exact DataFrame.hasCol_mapCols _ (materializeFun_name m _) df n

theorem materializeCol_getCol_ne (m : String) {df : DataFrame} (n : String)
    (hne : n ≠ m) : (materializeCol m df).getCol n = df.getCol n := by
  unfold materializeCol
  cases h : df.getCol m with
  | none => rfl
  | some c =>
    rw [DataFrame.getCol_mapCols _ (materializeFun_name m _)]
    cases hn : df.getCol n with
    | none => rfl
    | some d =>
      have hd : d.name = n := DataFrame.getCol_name hn
      simp only [Option.map_some']
      rw [if_neg (by rw [hd]; exact hne)]

theorem materializeCol_getCol_self {df : DataFrame} {m : String} {c : Column}
    (h : df.getCol m = some c) :
    (materializeCol m df).getCol m =
      some ⟨m, DType.utf8, c.values.map materializeValue⟩ := by
  unfold materializeCol
  rw [h]
  simp only
  rw [DataFrame.getCol_mapCols _ (materializeFun_name m _), h]
  simp only [Option.map_some']
  rw [if_pos (DataFrame.getCol_name h)]

theorem materializeCol_dtypeOf_self {df : DataFrame} {m : String}
    (h : df.hasCol m = true) : (materializeCol m df).dtypeOf m = DType.utf8 := by
  obtain ⟨c, hc⟩ := Option.isSome_iff_exists.mp (DataFrame.getCol_isSome_of_hasCol h)
  unfold DataFrame.dtypeOf
  rw [materializeCol_getCol_self hc]

theorem materializeCol_dtypeOf_ne (m : String) {df : DataFrame} (n : String)
    (hne : n ≠ m) : (materializeCol m df).dtypeOf n = df.dtypeOf n := by
  unfold DataFrame.dtypeOf
  rw [materializeCol_getCol_ne m n hne]

theorem bigCastFun_name (c : Column) : (bigCastFun c).name = c.name := by
  unfold bigCastFun
  cases castTargetsTP.lookup c.name <;> rfl

theorem bigCast_ok {df : DataFrame}
    (h1 : ∀ p ∈ castTargetsTP, df.hasCol p.1 = true)
    (h2 : ∀ p ∈ castTargetsTP, castOk (df.dtypeOf p.1) p.2 = true) :
    bigCast df = Except.ok ⟨df.cols.map bigCastFun⟩ := by
  unfold bigCast
  have e1 : castTargetsTP.find? (fun p => !df.hasCol p.1) = none :=
    List.find?_eq_none.mpr (fun p hp => by simp [h1 p hp])
  have e2 : castTargetsTP.find? (fun p => !castOk (df.dtypeOf p.1) p.2) = none :=
    List.find?_eq_none.mpr (fun p hp => by simp [h2 p hp])
  rw [e1, e2]

theorem bigCast_result_hasCol (df : DataFrame) (n : String) :
    DataFrame.hasCol ⟨df.cols.map bigCastFun⟩ n = df.hasCol n :=
  DataFrame.hasCol_mapCols _ bigCastFun_name df n

theorem bigCast_result_dtypeOf {df : DataFrame} {n : String} {t : DType}
    (hc : df.hasCol n = true) (ht : castTargetsTP.lookup n = some t) :
    DataFrame.dtypeOf ⟨df.cols.map bigCastFun⟩ n = t := by
  unfold DataFrame.dtypeOf
  rw [DataFrame.getCol_mapCols _ bigCastFun_name]
  obtain ⟨c, hcc⟩ := Option.isSome_iff_exists.mp (DataFrame.getCol_isSome_of_hasCol hc)
  rw [hcc]
  simp only [Option.map_some']
  unfold bigCastFun
  rw [DataFrame.getCol_name hcc, ht]
  rfl

theorem fillNameFun_name (m : List Value) (c : Column) :
    (fillNameFun m c).name = c.name := by
  unfold fillNameFun; split <;> simp_all

theorem fillNameFun_dtype (m : List Value) (c : Column) :
    (fillNameFun m c).dtype = c.dtype := by
  unfold fillNameFun; split <;> rfl

theorem fillTeamName_hasCol (s : Option DataFrame) (df : DataFrame) (n : String) :
    (fillTeamName s df).hasCol n = df.hasCol n := by
  unfold fillTeamName
  repeat' split
  all_goals try rfl
  all_goals dsimp only
  all_goals repeat' split
  all_goals first
    | rfl
    | exact DataFrame.hasCol_mapCols _ (fillNameFun_name _) df n

theorem fillTeamName_dtypeOf (s : Option DataFrame) (df : DataFrame) (n : String) :
    (fillTeamName s df).dtypeOf n = df.dtypeOf n := by
  unfold fillTeamName
  repeat' split
  all_goals try rfl
  all_goals dsimp only
  all_goals repeat' split
  all_goals first
    | rfl
    | exact DataFrame.dtypeOf_mapCols _ (fillNameFun_name _) (fillNameFun_dtype _) df n

theorem selectCols_ok {ns : List String} {df : DataFrame}
    (h : ∀ n ∈ ns, df.hasCol n = true) :
    DataFrame.selectCols ns df = Except.ok ⟨ns.filterMap df.getCol⟩ := by
  unfold DataFrame.selectCols
  have e : ns.find? (fun n => !df.hasCol n) = none :=
    List.find?_eq_none.mpr (fun n hn => by simp [h n hn])
  rw [e]

theorem selectCols_result_schema {ns : List String} {df : DataFrame}
    (h : ∀ n ∈ ns, df.hasCol n = true) :
    DataFrame.schema ⟨ns.filterMap df.getCol⟩ =
      ns.map (fun n => (n, df.dtypeOf n)) := by
  unfold DataFrame.schema
  induction ns with
  | nil => rfl
  | cons n ns ih =>
    have hn := h n (List.mem_cons_self n ns)
    obtain ⟨c, hc⟩ := Option.isSome_iff_exists.mp (DataFrame.getCol_isSome_of_hasCol hn)
    have hrest := ih (fun m hm => h m (List.mem_cons_of_mem _ hm))
    dsimp only at hrest ⊢
    simp only [List.filterMap_cons, hc, List.map_cons]
    rw [hrest]
    have hname : c.name = n := DataFrame.getCol_name hc
    have hdt : df.dtypeOf n = c.dtype := by unfold DataFrame.dtypeOf; rw [hc]
    rw [hname, hdt]

theorem DataFrame.columns_eq_schema_fst (df : DataFrame) :
    df.columns = df.schema.map Prod.fst := by
  unfold DataFrame.columns DataFrame.schema
  rw [List.map_map]
  rfl

theorem DataFrame.hasCol_true_iff (df : DataFrame) (n : String) :
    df.hasCol n = true ↔ n ∈ df.columns := by
  unfold DataFrame.hasCol DataFrame.columns
  rw [List.any_eq_true]
  constructor
  · rintro ⟨c, hc, hn⟩
    exact List.mem_map.mpr ⟨c, hc, by simpa using hn⟩
  · intro h
    obtain ⟨c, hc, hn⟩ := List.mem_map.mp h
    exact ⟨c, hc, by simp [hn]⟩

/-- The declared dtype of each cast target. -/
def declaredD (n : String) : DType :=
  match castTargetsTP.lookup n with
  | some t => t
  | none => DType.null

theorem castOk_null (t : DType) : castOk DType.null t = true := by
  unfold castOk; simp

theorem castOk_of_scalar {f t : DType} (hf : scalarD f = true)
    (ht : scalarD t = true) : castOk f t = true := by
  unfold castOk
  simp [hf, ht]

theorem scalarD_nullReplacementD (n : String) :
    scalarD (nullReplacementD n) = true := by
  unfold nullReplacementD
  by_cases h1 : n = "week" <;> by_cases h2 : n = "points" <;>
    simp [h1, h2, scalarD]

/-- Presence of every canonical column survives steps 1-3. -/
theorem stage4_hasCol (df : DataFrame) (n : String) :
    (materializeCol "eligible_positions" (materializeCol "player_positions"
      (typeNullCols (addMissingCols df)))).hasCol n = (addMissingCols df).hasCol n := by
  rw [materializeCol_hasCol, materializeCol_hasCol, typeNullCols_hasCol]

/-- The Schema Normalizer on a frame whose column set is exactly the
canonical one (the shape of its own output, and of every persisted
store file): the final cast block demands the `player_metadata` column,
which the canonical column list does not contain, so the normalizer
always fails there. -/
theorem normalize_err_of_canonical_columns (standings : Option DataFrame)
    {df : DataFrame} (h : df.columns = colsTP) :
    _normalize_team_players_df standings df =
      Except.error "ColumnNotFoundError: player_metadata" := by
  have present : ∀ n ∈ colsTP, df.hasCol n = true := by
    intro n hn
    rw [DataFrame.hasCol_true_iff, h]
    exact hn
  have hmf : df.hasCol "player_metadata" = false := by
    cases hx : df.hasCol "player_metadata" with
    | false => rfl
    | true =>
      have := (DataFrame.hasCol_true_iff df "player_metadata").mp hx
      rw [h] at this
      exact absurd this (by decide)
  have h4 : ∀ n ∈ colsTP, (materializeCol "eligible_positions" (materializeCol "player_positions"
      (typeNullCols (addMissingCols df)))).hasCol n = true := by
    intro n hn
    rw [stage4_hasCol]
    exact addMissingCols_hasCol_of_TP hn
  have hm4 : (materializeCol "eligible_positions" (materializeCol "player_positions"
      (typeNullCols (addMissingCols df)))).hasCol "player_metadata" = false := by
    rw [stage4_hasCol]
    exact addMissingCols_hasCol_of_absent_notTP hmf (by decide)
  have e : castTargetsTP.find?
      (fun p => !(materializeCol "eligible_positions" (materializeCol "player_positions"
        (typeNullCols (addMissingCols df)))).hasCol p.1) =
      some ("player_metadata", DType.utf8) := by
    unfold castTargetsTP
    rw [List.find?_cons_of_neg _ (by simp [h4 "team_key" (by decide)])]
    rw [List.find?_cons_of_neg _ (by simp [h4 "team_name" (by decide)])]
    rw [List.find?_cons_of_neg _ (by simp [h4 "player" (by decide)])]
    rw [List.find?_cons_of_neg _ (by simp [h4 "player_positions" (by decide)])]
    rw [List.find?_cons_of_neg _ (by simp [h4 "player_id" (by decide)])]
    rw [List.find?_cons_of_neg _ (by simp [h4 "player_name" (by decide)])]
    rw [List.find?_cons_of_neg _ (by simp [h4 "player_status" (by decide)])]
    rw [List.find?_cons_of_neg _ (by simp [h4 "position_type" (by decide)])]
    rw [List.find?_cons_of_neg _ (by simp [h4 "eligible_positions" (by decide)])]
    rw [List.find?_cons_of_neg _ (by simp [h4 "selected_position" (by decide)])]
    rw [List.find?_cons_of_pos _ (by simp [hm4])]
  unfold _normalize_team_players_df bigCast
  rw [e]
  rfl

theorem castTargets_names_cases : ∀ p ∈ castTargetsTP,
    p.1 ∈ colsTP ∨ p.1 = "player_metadata" ∨ p.1 = "player_stats" := by decide

theorem castTargets_scalar : ∀ p ∈ castTargetsTP, scalarD p.2 = true := by decide

theorem castTargets_lookup_self : ∀ p ∈ castTargetsTP,
    castTargetsTP.lookup p.1 = some p.2 := by decide

theorem colsTP_lookup : ∀ n ∈ colsTP,
    castTargetsTP.lookup n = some (declaredD n) := by decide

theorem colsTP_declared : colsTP.map (fun n => (n, declaredD n)) = canonSchemaTP := by
  decide

theorem stage4_dtypeOf_ne (df : DataFrame) (n : String)
    (h1 : n ≠ "player_positions") (h2 : n ≠ "eligible_positions") :
    (materializeCol "eligible_positions" (materializeCol "player_positions"
      (typeNullCols (addMissingCols df)))).dtypeOf n =
    (typeNullCols (addMissingCols df)).dtypeOf n := by
  rw [materializeCol_dtypeOf_ne _ _ h2, materializeCol_dtypeOf_ne _ _ h1]

theorem stage4_dtypeOf_pp (df : DataFrame) :
    (materializeCol "eligible_positions" (materializeCol "player_positions"
      (typeNullCols (addMissingCols df)))).dtypeOf "player_positions" = DType.utf8 := by
  rw [materializeCol_dtypeOf_ne _ _ (by decide)]
  apply materializeCol_dtypeOf_self
  rw [typeNullCols_hasCol]
  exact addMissingCols_hasCol_of_TP (by decide)

theorem stage4_dtypeOf_ep (df : DataFrame) :
    (materializeCol "eligible_positions" (materializeCol "player_positions"
      (typeNullCols (addMissingCols df)))).dtypeOf "eligible_positions" = DType.utf8 := by
  apply materializeCol_dtypeOf_self
  rw [materializeCol_hasCol, typeNullCols_hasCol]
  exact addMissingCols_hasCol_of_TP (by decide)

theorem dtypeOf_typeNullCols (df1 : DataFrame) (n : String) :
    (typeNullCols df1).dtypeOf n =
      (match df1.getCol n with
       | none => DType.null
       | some c =>
         if colsTP.contains c.name && c.dtype = DType.null
         then nullReplacementD c.name else c.dtype) := by
  unfold DataFrame.dtypeOf
  rw [typeNullCols_getCol]
  cases df1.getCol n with
  | none => rfl
  | some c =>
    simp only [Option.map_some']
    unfold typeNullFun
    split <;> simp_all

theorem stage4_castOk (df : DataFrame)
    (hm : df.hasCol "player_metadata" = true)
    (hs : df.hasCol "player_stats" = true)
    (hsc : ∀ c ∈ df.cols, (castTargetsTP.lookup c.name).isSome →
      c.name ≠ "player_positions" → c.name ≠ "eligible_positions" →
      (c.dtype = DType.null ∨ scalarD c.dtype = true)) :
    ∀ p ∈ castTargetsTP, castOk ((materializeCol "eligible_positions"
      (materializeCol "player_positions"
        (typeNullCols (addMissingCols df)))).dtypeOf p.1) p.2 = true := by
  intro p hp
  have htScalar : scalarD p.2 = true := castTargets_scalar p hp
  by_cases hpp : p.1 = "player_positions"
  · rw [hpp, stage4_dtypeOf_pp]
    exact castOk_of_scalar (by decide) htScalar
  by_cases hep : p.1 = "eligible_positions"
  · rw [hep, stage4_dtypeOf_ep]
    exact castOk_of_scalar (by decide) htScalar
  rw [stage4_dtypeOf_ne df p.1 hpp hep, dtypeOf_typeNullCols]
  cases hg : (addMissingCols df).getCol p.1 with
  | none => exact castOk_null p.2
  | some c =>
    dsimp only
    have hcname : c.name = p.1 := DataFrame.getCol_name hg
    by_cases hnull : c.dtype = DType.null
    · by_cases hmem : colsTP.contains c.name = true
      · simp only [hmem, hnull]
        rw [if_pos (by simp)]
        exact castOk_of_scalar (scalarD_nullReplacementD c.name) htScalar
      · rw [if_neg (fun hcond => hmem (Bool.and_elim_left hcond)), hnull]
        exact castOk_null p.2
    · rw [if_neg (by simp [hnull])]
      cases hhc : df.hasCol p.1 with
      | true =>
        have heq : (addMissingCols df).getCol p.1 = df.getCol p.1 :=
          addMissingCols_getCol_of_hasCol hhc
        rw [heq] at hg
        have hcmem : c ∈ df.cols := List.mem_of_find?_eq_some hg
        have hlook : (castTargetsTP.lookup c.name).isSome := by
          rw [hcname, castTargets_lookup_self p hp]
          rfl
        rcases hsc c hcmem hlook (by rw [hcname]; exact hpp)
            (by rw [hcname]; exact hep) with h | h
        · exact absurd h hnull
        · exact castOk_of_scalar h htScalar
      | false =>
        rcases castTargets_names_cases p hp with h | h | h
        · rw [addMissingCols_getCol_of_absent hhc h] at hg
          exact absurd (congrArg Column.dtype (Option.some.inj hg)).symm hnull
        · rw [h] at hhc
          rw [hhc] at hm
          exact absurd hm (by simp)
        · rw [h] at hhc
          rw [hhc] at hs
          exact absurd hs (by simp)

/-- The Schema Normalizer succeeds and emits exactly the declared
canonical schema whenever its input carries the two auxiliary columns
`player_metadata` and `player_stats` that the final cast block demands,
with every cast-target column carrying a castable (null or scalar)
dtype. -/
theorem normalize_ok_schema (standings : Option DataFrame) (df : DataFrame)
    (hm : df.hasCol "player_metadata" = true)
    (hs : df.hasCol "player_stats" = true)
    (hsc : ∀ c ∈ df.cols, (castTargetsTP.lookup c.name).isSome →
      c.name ≠ "player_positions" → c.name ≠ "eligible_positions" →
      (c.dtype = DType.null ∨ scalarD c.dtype = true)) :
    ∃ out, _normalize_team_players_df standings df = Except.ok out ∧
      out.schema = canonSchemaTP := by
  have hAll : ∀ p ∈ castTargetsTP, (materializeCol "eligible_positions"
      (materializeCol "player_positions"
        (typeNullCols (addMissingCols df)))).hasCol p.1 = true := by
    intro p hp
    rw [stage4_hasCol]
    rcases castTargets_names_cases p hp with h | h | h
    · exact addMissingCols_hasCol_of_TP h
    · rw [h]; exact addMissingCols_hasCol_of_hasCol hm
    · rw [h]; exact addMissingCols_hasCol_of_hasCol hs
  have hbig := bigCast_ok hAll (stage4_castOk df hm hs hsc)
  have hsel : ∀ n ∈ colsTP,
      (fillTeamName standings ⟨List.map bigCastFun (materializeCol "eligible_positions"
        (materializeCol "player_positions"
          (typeNullCols (addMissingCols df)))).cols⟩).hasCol n = true := by
    intro n hn
    rw [fillTeamName_hasCol, bigCast_result_hasCol, stage4_hasCol]
    exact addMissingCols_hasCol_of_TP hn
  unfold _normalize_team_players_df
  rw [hbig]
  simp only
  rw [selectCols_ok hsel]
  refine ⟨_, rfl, ?_⟩
  rw [selectCols_result_schema hsel, ← colsTP_declared]
  apply List.map_congr_left
  intro n hn
  have hdt : (fillTeamName standings ⟨List.map bigCastFun (materializeCol "eligible_positions"
      (materializeCol "player_positions"
        (typeNullCols (addMissingCols df)))).cols⟩).dtypeOf n = declaredD n := by
    rw [fillTeamName_dtypeOf]
    exact bigCast_result_dtypeOf
      (by rw [stage4_hasCol]; exact addMissingCols_hasCol_of_TP hn)
      (colsTP_lookup n hn)
  rw [hdt]

theorem selectCols_ok_columns {ns : List String} {df out : DataFrame}
    (h : DataFrame.selectCols ns df = Except.ok out) : out.columns = ns := by
  unfold DataFrame.selectCols at h
  cases hf : ns.find? (fun n => !df.hasCol n) with
  | some n =>
    rw [hf] at h
    exact absurd h (by simp)
  | none =>
    rw [hf] at h
    have hpres : ∀ n ∈ ns, df.hasCol n = true := by
      intro n hn
      have := List.find?_eq_none.mp hf n hn
      simpa using this
    have hout : out = ⟨ns.filterMap df.getCol⟩ := by
      cases h
      rfl
    rw [hout, DataFrame.columns_eq_schema_fst, selectCols_result_schema hpres,
      List.map_map]
    have hcomp : (Prod.fst ∘ fun n : String => (n, df.dtypeOf n)) = id := by
      funext n; rfl
    rw [hcomp, List.map_id]

/-- Whenever the normalizer succeeds, its output has exactly the
canonical column list. -/
theorem normalize_ok_columns {standings : Option DataFrame} {df out : DataFrame}
    (h : _normalize_team_players_df standings df = Except.ok out) :
    out.columns = colsTP := by
  unfold _normalize_team_players_df at h
  cases hb : bigCast (materializeCol "eligible_positions" (materializeCol "player_positions"
      (typeNullCols (addMissingCols df)))) with
  | error e =>
    rw [hb] at h
    exact absurd h (by simp)
  | ok d5 =>
    rw [hb] at h
    exact selectCols_ok_columns h

/-- C1: applying the Schema Normalizer to its own output is never a
no-op — it is never even a success.  Whenever `normalize(T)` succeeds,
its output has exactly the canonical 27 columns, which lack the
`player_metadata` column that the normalizer's own cast block requires,
so the second application raises `ColumnNotFoundError` instead of
returning the table unchanged.  (At its call sites this error is caught
and silently skips re-normalization.) -/
theorem normalize_normalize_always_errs (standings : Option DataFrame)
    (df out : DataFrame)
    (h : _normalize_team_players_df standings df = Except.ok out) :
    _normalize_team_players_df standings out =
      Except.error "ColumnNotFoundError: player_metadata" :=
  normalize_err_of_canonical_columns standings (normalize_ok_columns h)

/-- A one-row roster batch as `roster_to_rows` would shape it (with the
auxiliary `player_metadata`/`player_stats` columns present). -/
def dfWitC1 : DataFrame :=
  ⟨[⟨"team_key", DType.utf8, [Value.str "449.l.1.t.1"]⟩,
    ⟨"player", DType.utf8, [Value.str "449.p.10"]⟩,
    ⟨"player_metadata", DType.null, [Value.null]⟩,
    ⟨"player_stats", DType.null, [Value.null]⟩]⟩

/-- The (successful) first normalization of `dfWitC1`. -/
def normWitC1 : DataFrame :=
  match _normalize_team_players_df none dfWitC1 with
  | Except.ok d => d
  | Except.error _ => ⟨[]⟩

/-- C1 witness: on a concrete one-row batch the first normalization
succeeds and the second raises. -/
theorem normalize_normalize_always_errs_witness :
    _normalize_team_players_df none dfWitC1 = Except.ok normWitC1 ∧
    _normalize_team_players_df none normWitC1 =
      Except.error "ColumnNotFoundError: player_metadata" :=
  ⟨rfl, normalize_normalize_always_errs none dfWitC1 normWitC1 rfl⟩

/-- A batch with a column subset missing `player_metadata`/`player_stats`
(the shape of e.g. a string-item roster, or any previously normalized
table). -/
def dfCexC2 : DataFrame :=
  ⟨[⟨"team_key", DType.utf8, [Value.str "449.l.1.t.1"]⟩]⟩

/-- C2 counterexample: for this batch with a partial column subset the
normalizer does not return a canonical-schema table at all — it raises
`ColumnNotFoundError` from the cast block, because the input lacks the
non-canonical `player_metadata` column that the cast block demands. -/
theorem normalizer_schema_counterexample :
    _normalize_team_players_df none dfCexC2 =
      Except.error "ColumnNotFoundError: player_metadata" := by
  rfl

/-- C2 (amended): for every batch that carries the two auxiliary columns
`player_metadata` and `player_stats` demanded by the cast block (with
castable dtypes on the cast-target columns), the normalizer's output
column list and per-column dtype equal the declared 27-column canonical
schema exactly; all-null columns receive their declared dtype, also on
a zero-row batch. -/
theorem normalizer_output_schema (standings : Option DataFrame) (df : DataFrame)
    (hm : df.hasCol "player_metadata" = true)
    (hs : df.hasCol "player_stats" = true)
    (hsc : ∀ c ∈ df.cols, (castTargetsTP.lookup c.name).isSome →
      c.name ≠ "player_positions" → c.name ≠ "eligible_positions" →
      (c.dtype = DType.null ∨ scalarD c.dtype = true)) :
    ∃ out, _normalize_team_players_df standings df = Except.ok out ∧
      out.schema = canonSchemaTP :=
  normalize_ok_schema standings df hm hs hsc

/-- A zero-row batch with a partial column subset plus the two auxiliary
columns. -/
def dfWitC2 : DataFrame :=
  ⟨[⟨"week", DType.null, []⟩,
    ⟨"team_key", DType.utf8, []⟩,
    ⟨"player_metadata", DType.null, []⟩,
    ⟨"player_stats", DType.null, []⟩]⟩

/-- C2 witness: a concrete zero-row batch satisfies the hypotheses and
normalizes to the exact canonical schema. -/
theorem normalizer_output_schema_witness :
    ∃ out, _normalize_team_players_df none dfWitC2 = Except.ok out ∧
      out.schema = canonSchemaTP :=
  normalizer_output_schema none dfWitC2 (by decide) (by decide) (by decide)

/-! ### Incremental Merge Store -/

theorem vconcat_ok {a b : DataFrame} (h : a.schema = b.schema) :
    DataFrame.vconcat a b = Except.ok
      ⟨List.zipWith (fun c d => ⟨c.name, c.dtype, c.values ++ d.values⟩) a.cols b.cols⟩ := by
  unfold DataFrame.vconcat
  rw [if_pos h]

theorem vconcat_colValues {as bs : List Column}
    (h : (DataFrame.mk as).schema = (DataFrame.mk bs).schema) (n : String) :
    DataFrame.colValues ⟨List.zipWith (fun c d =>
        (⟨c.name, c.dtype, c.values ++ d.values⟩ : Column)) as bs⟩ n =
      DataFrame.colValues ⟨as⟩ n ++ DataFrame.colValues ⟨bs⟩ n := by
  unfold DataFrame.schema at h
  simp only at h
  induction as generalizing bs with
  | nil =>
    have : bs = [] := by
      cases bs with
      | nil => rfl
      | cons d ds => exact absurd h (by simp)
    subst this
    rfl
  | cons c cs ih =>
    cases bs with
    | nil => exact absurd h (by simp)
    | cons d ds =>
      simp only [List.map_cons, List.cons.injEq] at h
      obtain ⟨hhd, htl⟩ := h
      have hdn : d.name = c.name := by
        have := congrArg Prod.fst hhd
        simpa using this.symm
      unfold DataFrame.colValues DataFrame.getCol
      simp only [List.zipWith_cons_cons]
      by_cases hn : c.name = n
      · rw [List.find?_cons_of_pos _ (by simpa using hn),
          List.find?_cons_of_pos _ (by simpa using hn),
          List.find?_cons_of_pos _ (by simp [hdn, hn])]
      · rw [List.find?_cons_of_neg _ (by simpa using hn),
          List.find?_cons_of_neg _ (by simpa using hn),
          List.find?_cons_of_neg _ (by simp [hdn, hn])]
        have := ih htl
        unfold DataFrame.colValues DataFrame.getCol at this
        simpa using this

theorem vconcat_height {as bs : List Column}
    (h : (DataFrame.mk as).schema = (DataFrame.mk bs).schema) :
    DataFrame.height ⟨List.zipWith (fun c d =>
        (⟨c.name, c.dtype, c.values ++ d.values⟩ : Column)) as bs⟩ =
      DataFrame.height ⟨as⟩ + DataFrame.height ⟨bs⟩ := by
  unfold DataFrame.schema at h
  simp only at h
  cases as with
  | nil =>
    have : bs = [] := by
      cases bs with
      | nil => rfl
      | cons d ds => exact absurd h (by simp)
    subst this
    rfl
  | cons c cs =>
    cases bs with
    | nil => exact absurd h (by simp)
    | cons d ds =>
      unfold DataFrame.height
      simp [List.length_append]

theorem columns_of_canonSchema {df : DataFrame} (h : df.schema = canonSchemaTP) :
    df.columns = colsTP := by
  rw [DataFrame.columns_eq_schema_fst, h]
  decide

/-- C3 counterexample: with an existing-but-unreadable store and a
nonempty normalized batch, the append aborts without writing (first
half of the claim), but the read failure does NOT surface to the
caller: the broad handler at src/ff/get_team.py:165-167 catches it and
`get_team` returns normally, contradicting the claim's second half. -/
theorem merge_unreadable_counterexample :
    (mergeTeamPlayers StoreState.unreadable none (some dfWitC1)).written = none ∧
    (mergeTeamPlayers StoreState.unreadable none (some dfWitC1)).raised = false :=
  ⟨rfl, rfl⟩

/-- C3 (amended): if the persisted store exists but cannot be read, the
append aborts without writing anything, and the failure is swallowed by
the surrounding broad `except` (only debug-logged) — it never reaches
`get_team`'s caller. -/
theorem merge_unreadable_aborts_silently (standings : Option DataFrame)
    (roster : Option DataFrame) :
    mergeTeamPlayers StoreState.unreadable standings roster = ⟨none, false⟩ := by
  cases roster with
  | none => rfl
  | some df =>
    unfold mergeTeamPlayers
    dsimp only
    split <;> rfl

/-- C4: appending a batch of M canonical rows to a readable store of N
canonical rows writes exactly the N existing rows first, in order and
unchanged, followed by the M batch rows in batch order, with no
deduplication (the concatenation holds even when batch rows duplicate
stored rows). -/
theorem merge_appends_rows (standings : Option DataFrame) (ex nd : DataFrame)
    (hex : ex.schema = canonSchemaTP) (hnd : nd.schema = canonSchemaTP)
    (hh : 0 < nd.height) :
    ∃ comb, mergeTeamPlayers (StoreState.readable ex) standings (some nd) =
        ⟨some comb, false⟩ ∧
      comb.height = ex.height + nd.height ∧
      ∀ n, comb.colValues n = ex.colValues n ++ nd.colValues n := by
  have hndN : _normalize_team_players_df standings nd =
      Except.error "ColumnNotFoundError: player_metadata" :=
    normalize_err_of_canonical_columns standings (columns_of_canonSchema hnd)
  have hexN : _normalize_team_players_df standings ex =
      Except.error "ColumnNotFoundError: player_metadata" :=
    normalize_err_of_canonical_columns standings (columns_of_canonSchema hex)
  have hsch : ex.schema = nd.schema := hex.trans hnd.symm
  refine ⟨⟨List.zipWith (fun c d => ⟨c.name, c.dtype, c.values ++ d.values⟩)
      ex.cols nd.cols⟩, ?_, ?_, ?_⟩
  · unfold mergeTeamPlayers
    dsimp only
    rw [if_pos hh, hndN, hexN, vconcat_ok hsch]
  · exact vconcat_height hsch
  · exact fun n => vconcat_colValues hsch n

/-- A one-row all-null canonical-schema frame. -/
def dfWitC4 : DataFrame :=
  ⟨canonSchemaTP.map (fun p => ⟨p.1, p.2, [Value.null]⟩)⟩

/-- C4 witness: appending a concrete one-row canonical batch to a
concrete one-row canonical store yields a two-row store that is the
exact row concatenation. -/
theorem merge_appends_rows_witness :
    ∃ comb, mergeTeamPlayers (StoreState.readable dfWitC4) none (some dfWitC4) =
        ⟨some comb, false⟩ ∧
      comb.height = dfWitC4.height + dfWitC4.height ∧
      ∀ n, comb.colValues n = dfWitC4.colValues n ++ dfWitC4.colValues n :=
  merge_appends_rows none dfWitC4 dfWitC4 (by decide) (by decide) (by decide)

/-- C10: when the roster payload yields zero rows, `get_team` performs
no write at all to the persisted store — neither when flattening
produced no frame, nor for an empty frame — and `roster_to_rows`
itself returns no frame for an empty roster. -/
theorem merge_no_write_on_empty_roster (store : StoreState)
    (standings : Option DataFrame) :
    mergeTeamPlayers store standings none = ⟨none, false⟩ ∧
    (∀ df : DataFrame, df.height = 0 →
      mergeTeamPlayers store standings (some df) = ⟨none, false⟩) ∧
    (∀ tk tn wk, roster_to_rows tk tn [] wk = none) := by
  refine ⟨rfl, ?_, fun tk tn wk => rfl⟩
  intro df h
  unfold mergeTeamPlayers
  dsimp only
  rw [if_neg (by rw [h]; exact Nat.lt_irrefl 0)]

/-- C10 witness: a concrete store state with an empty batch and an
empty roster. -/
theorem merge_no_write_on_empty_roster_witness :
    mergeTeamPlayers StoreState.absent none
        (some ⟨[⟨"team_key", DType.utf8, []⟩]⟩) = ⟨none, false⟩ ∧
    roster_to_rows "449.l.1.t.1" Value.null [] none = none :=
  ⟨(merge_no_write_on_empty_roster StoreState.absent none).2.1 _ rfl,
   (merge_no_write_on_empty_roster StoreState.absent none).2.2 _ _ _⟩

/-! ### Record Extractor -/

/-- A record whose preferred alias is present but empty. -/
def recCexC5 : List (String × Value) :=
  [("player_key", Value.str ""), ("playerKey", Value.str "449.p.7")]

/-- C5 counterexample: on a record whose preferred alias `player_key`
is present and non-null (the empty string), the extractor does NOT
return it — the Python `or` chain skips every falsy value, so the
fallback alias wins, contradicting the claim's "first alias present
and non-null" rule. -/
theorem extractor_counterexample :
    extractPlayer recCexC5 = Value.str "449.p.7" ∧
    Value.str "449.p.7" ≠ Value.str "" := by
  refine ⟨rfl, fun h => ?_⟩
  injection h with h2
  exact absurd h2 (by decide)

/-- C5 (amended): the extractor resolves the `player` field to the
value of the first alias in `player_key`, `playerKey`, `player_id`,
`id` order whose value is truthy (present, non-null, non-empty,
non-zero); if no alias is present at all the field is null, and when
no alias is truthy the field takes the last alias's looked-up value. -/
theorem extractor_alias_priority (item : List (String × Value)) :
    ((item.lookup "player_key").isNone → (item.lookup "playerKey").isNone →
      (item.lookup "player_id").isNone → (item.lookup "id").isNone →
      extractPlayer item = Value.null) ∧
    (truthy (dictGet item "player_key") = true →
      extractPlayer item = dictGet item "player_key") ∧
    (truthy (dictGet item "player_key") = false →
      truthy (dictGet item "playerKey") = true →
      extractPlayer item = dictGet item "playerKey") ∧
    (truthy (dictGet item "player_key") = false →
      truthy (dictGet item "playerKey") = false →
      truthy (dictGet item "player_id") = true →
      extractPlayer item = dictGet item "player_id") ∧
    (truthy (dictGet item "player_key") = false →
      truthy (dictGet item "playerKey") = false →
      truthy (dictGet item "player_id") = false →
      extractPlayer item = dictGet item "id") := by
  refine ⟨?_, ?_, ?_, ?_, ?_⟩
  · intro h1 h2 h3 h4
    unfold extractPlayer dictGet
    rw [Option.isNone_iff_eq_none.mp h1, Option.isNone_iff_eq_none.mp h2,
      Option.isNone_iff_eq_none.mp h3, Option.isNone_iff_eq_none.mp h4]
    rfl
  · intro h1
    unfold extractPlayer
    simp [pyOr, h1]
  · intro h1 h2
    unfold extractPlayer
    simp [pyOr, h1, h2]
  · intro h1 h2 h3
    unfold extractPlayer
    simp [pyOr, h1, h2, h3]
  · intro h1 h2 h3
    unfold extractPlayer
    simp [pyOr, h1, h2, h3]

/-- C5 witness: on a record exposing both the preferred `player_key`
and the fallback `player_id` with (truthy) values, the preferred
alias's value wins. -/
theorem extractor_alias_priority_witness :
    extractPlayer [("player_key", Value.str "449.p.1"),
        ("player_id", Value.str "449.p.2")] =
      dictGet [("player_key", Value.str "449.p.1"),
        ("player_id", Value.str "449.p.2")] "player_key" :=
  (extractor_alias_priority _).2.1 (by decide)

/-! ### Cross-Reference Filler -/

theorem lookupLast_mem {pairs : List (Value × Value)} {k v : Value}
    (h : lookupLast pairs k = some v) : ∃ p ∈ pairs, p.2 = v := by
  unfold lookupLast at h
  cases hg : (pairs.filter (fun p => pyEqScalar p.1 k)).getLast? with
  | none => rw [hg] at h; exact absurd h (by simp)
  | some p =>
    rw [hg] at h
    have hp := List.mem_of_getLast?_eq_some hg
    exact ⟨p, (List.mem_filter.mp hp).1, by simpa using h⟩

theorem lookupLast_zip_snd {keys names : List Value} {k v : Value}
    (h : lookupLast (keys.zip names) k = some v) : v ∈ names := by
  obtain ⟨⟨a, b⟩, hp, hv⟩ := lookupLast_mem h
  have := List.of_mem_zip hp
  rw [← hv]
  exact this.2

theorem infer_nullstr (vs : List Value)
    (h : ∀ v ∈ vs, v = Value.null ∨ ∃ t, v = Value.str t) :
    ∃ d, inferD vs = some d ∧ castOk d DType.utf8 = true := by
  unfold inferD
  by_cases h1 : vs.all (fun v => isNullV v) = true
  · rw [if_pos h1]
    exact ⟨DType.null, rfl, castOk_null _⟩
  · rw [if_neg h1]
    have h2 : vs.all (fun v => match v with
        | Value.null => true | Value.str _ => true | _ => false) = true := by
      rw [List.all_eq_true]
      intro v hv
      rcases h v hv with rfl | ⟨t, rfl⟩ <;> rfl
    rw [if_pos h2]
    exact ⟨DType.utf8, rfl, by decide⟩

theorem castValueF_utf8_id {v : Value}
    (h : v = Value.null ∨ ∃ t, v = Value.str t) :
    castValueF DType.utf8 v = v := by
  rcases h with rfl | ⟨t, rfl⟩ <;> rfl

theorem zipWith_keep_old {vals keys : List Value} (g : Value → Value)
    (h : ∀ v ∈ vals, isNullV v = false) (hlen : vals.length ≤ keys.length) :
    List.zipWith (fun old k => if isNullV old then g k else old) vals keys = vals := by
  induction vals generalizing keys with
  | nil => simp
  | cons v vs ih =>
    cases keys with
    | nil => simp at hlen
    | cons k ks =>
      simp only [List.zipWith_cons_cons]
      rw [if_neg (by simp [h v (List.mem_cons_self v vs)]),
        ih (fun w hw => h w (List.mem_cons_of_mem _ hw)) (by simpa using hlen)]

theorem colValues_length_of_wf {df : DataFrame} {n : String} (hwf : df.Wf)
    (h : df.hasCol n = true) : (df.colValues n).length = df.height := by
  obtain ⟨c, hc⟩ := Option.isSome_iff_exists.mp (DataFrame.getCol_isSome_of_hasCol h)
  unfold DataFrame.colValues
  rw [hc]
  exact hwf c (List.mem_of_find?_eq_some hc)

/-- C6: the Cross-Reference Filler.  With no readable reference frame,
or with a reference frame exposing no recognizable key/name column
pair, the fill is a no-op (and, being total, never raises).  With a
recognizable `team_key`/`Team` pair whose names are text-or-null, each
row's null `team_name` is replaced by the name mapped from that row's
`team_key` (null again — i.e. unchanged — when the key is unmapped),
every non-null `team_name` keeps its value, and every other column is
untouched. -/
theorem cross_reference_fill (df : DataFrame) (hwf : df.Wf)
    (hTN : df.hasCol "team_name" = true) (hTK : df.hasCol "team_key" = true) :
    (fillTeamName none df = df) ∧
    (∀ s : DataFrame,
      ((s.hasCol "team_key" = false ∧ s.hasCol "teamKey" = false) ∨
       (s.hasCol "Team" = false ∧ s.hasCol "name" = false)) →
      fillTeamName (some s) df = df) ∧
    (∀ s : DataFrame, s.hasCol "team_key" = true → s.hasCol "Team" = true →
      (∀ v ∈ s.colValues "Team", v = Value.null ∨ ∃ t, v = Value.str t) →
      (fillTeamName (some s) df).colValues "team_name" =
        List.zipWith (fun old k => if isNullV old then
            (lookupLast ((s.colValues "team_key").zip (s.colValues "Team")) k).getD
              Value.null
          else old)
          (df.colValues "team_name") (df.colValues "team_key") ∧
      (∀ n, n ≠ "team_name" →
        (fillTeamName (some s) df).colValues n = df.colValues n)) := by
  have hcond1 : ¬((!df.hasCol "team_name" || !df.hasCol "team_key") = true) := by
    simp [hTN, hTK]
  have hlen : (df.colValues "team_name").length ≤ (df.colValues "team_key").length := by
    rw [colValues_length_of_wf hwf hTN, colValues_length_of_wf hwf hTK]
  refine ⟨?_, ?_, ?_⟩
  · unfold fillTeamName
    rw [if_neg hcond1]
    split <;> rfl
  · intro s hpair
    unfold fillTeamName
    rw [if_neg hcond1]
    by_cases hcnt : (df.colValues "team_name").countP (fun v => isNullV v) = 0
    · rw [if_pos hcnt]
    · rw [if_neg hcnt]
      dsimp only
      rcases hpair with ⟨hk1, hk2⟩ | ⟨hn1, hn2⟩ <;>
        (repeat' split) <;> first | rfl | simp_all
  · intro s hK hN hnames
    have hgid : ∀ k, castValueF DType.utf8
        ((lookupLast ((s.colValues "team_key").zip (s.colValues "Team")) k).getD
          Value.null) =
        (lookupLast ((s.colValues "team_key").zip (s.colValues "Team")) k).getD
          Value.null := by
      intro k
      cases hl : lookupLast ((s.colValues "team_key").zip (s.colValues "Team")) k with
      | none => rfl
      | some v =>
        simp only [Option.getD_some]
        exact castValueF_utf8_id (hnames v (lookupLast_zip_snd hl))
    by_cases hcnt : (df.colValues "team_name").countP (fun v => isNullV v) = 0
    · -- no null target values: the fill leaves the frame unchanged, and the
      -- claimed per-row formula also keeps every value
      have hnonull : ∀ v ∈ df.colValues "team_name", isNullV v = false := by
        intro v hv
        have := List.countP_eq_zero.mp hcnt v hv
        simpa using this
      have hfix : fillTeamName (some s) df = df := by
        unfold fillTeamName
        rw [if_neg hcond1, if_pos hcnt]
      rw [hfix, zipWith_keep_old _ hnonull hlen]
      exact ⟨rfl, fun n _ => rfl⟩
    · have hfill : fillTeamName (some s) df =
          ⟨df.cols.map (fillNameFun (((df.colValues "team_key").map
            (fun k => (lookupLast ((s.colValues "team_key").zip (s.colValues "Team")) k).getD
              Value.null)).map (castValueF DType.utf8)))⟩ := by
        unfold fillTeamName
        rw [if_neg hcond1, if_neg hcnt]
        dsimp only
        rw [if_pos hK, if_pos hN]
        dsimp only
        obtain ⟨d, hd, hcast⟩ := infer_nullstr
            ((df.colValues "team_key").map
              (fun k => (lookupLast ((s.colValues "team_key").zip (s.colValues "Team")) k).getD
                Value.null))
          (by
            intro v hv
            obtain ⟨k, _, hkv⟩ := List.mem_map.mp hv
            cases hl : lookupLast ((s.colValues "team_key").zip (s.colValues "Team")) k with
            | none => left; rw [← hkv, hl]; rfl
            | some w =>
              rw [hl] at hkv
              simp only [Option.getD_some] at hkv
              rw [← hkv]
              exact hnames w (lookupLast_zip_snd hl))
        rw [hd]
        dsimp only
        rw [if_pos hcast]
      constructor
      · rw [hfill]
        obtain ⟨c, hc⟩ := Option.isSome_iff_exists.mp (DataFrame.getCol_isSome_of_hasCol hTN)
        have hcv : df.colValues "team_name" = c.values := by
          unfold DataFrame.colValues
          rw [hc]
        rw [DataFrame.colValues_mapCols _ (fillNameFun_name _), hc]
        simp only [Option.map_some', Option.elim]
        unfold fillNameFun
        rw [if_pos (DataFrame.getCol_name hc)]
        simp only
        rw [List.map_map, hcv]
        have hfun : (castValueF DType.utf8 ∘ fun k =>
            (lookupLast ((s.colValues "team_key").zip (s.colValues "Team")) k).getD
              Value.null) = (fun k =>
            (lookupLast ((s.colValues "team_key").zip (s.colValues "Team")) k).getD
              Value.null) := by
          funext k
          exact hgid k
        rw [hfun, List.zipWith_map_right]
      · intro n hn
        rw [hfill]
        rw [DataFrame.colValues_mapCols _ (fillNameFun_name _)]
        unfold DataFrame.colValues
        cases hg : df.getCol n with
        | none => rfl
        | some c =>
          simp only [Option.map_some', Option.elim]
          unfold fillNameFun
          rw [if_neg (by rw [DataFrame.getCol_name hg]; exact hn)]

/-- A two-row frame with one mapped-null, one unmapped-null `team_name`,
plus a reference standings frame with the claim's mapping. -/
def dfWitC6 : DataFrame :=
  ⟨[⟨"team_key", DType.utf8, [Value.str "449.l.1.t.2", Value.str "449.l.1.t.9"]⟩,
    ⟨"team_name", DType.utf8, [Value.null, Value.null]⟩]⟩

/-- The reference standings frame mapping `449.l.1.t.2` to
`Gridiron Giants`. -/
def standingsWitC6 : DataFrame :=
  ⟨[⟨"team_key", DType.utf8, [Value.str "449.l.1.t.2"]⟩,
    ⟨"Team", DType.utf8, [Value.str "Gridiron Giants"]⟩]⟩

/-- C6 witness: the fill on the concrete frames — the mapped key's null
name is filled to `Gridiron Giants`, the unmapped key's stays null, and
the filler is a no-op without a reference frame. -/
theorem cross_reference_fill_witness :
    fillTeamName none dfWitC6 = dfWitC6 ∧
    (fillTeamName (some standingsWitC6) dfWitC6).colValues "team_name" =
      List.zipWith (fun old k => if isNullV old then
          (lookupLast ((standingsWitC6.colValues "team_key").zip
            (standingsWitC6.colValues "Team")) k).getD Value.null
        else old)
        (dfWitC6.colValues "team_name") (dfWitC6.colValues "team_key") := by
  have h := cross_reference_fill dfWitC6
    (by intro c hc; fin_cases hc <;> rfl) rfl rfl
  refine ⟨h.1, ?_⟩
  exact (h.2.2 standingsWitC6 rfl rfl
    (by intro v hv; fin_cases hv; right; exact ⟨_, rfl⟩)).1

/-! ### Column update lemmas (withCol / dropCol / renameCol) -/

theorem replaceFun_name (c : Column) (d : Column) :
    (if d.name = c.name then c else d).name = d.name := by
  split <;> simp_all

theorem withCol_colValues_self (df : DataFrame) (c : Column) :
    (df.withCol c).colValues c.name = c.values := by
  unfold DataFrame.withCol
  by_cases h : df.hasCol c.name = true
  · rw [if_pos h]
    unfold DataFrame.colValues
    rw [DataFrame.getCol_mapCols _ (replaceFun_name c)]
    obtain ⟨d, hd⟩ := Option.isSome_iff_exists.mp (DataFrame.getCol_isSome_of_hasCol h)
    rw [hd]
    simp only [Option.map_some']
    rw [if_pos (DataFrame.getCol_name hd)]
  · rw [if_neg h]
    unfold DataFrame.colValues DataFrame.getCol
    rw [List.find?_append]
    have h1 : df.cols.find? (fun d => d.name = c.name) = none := by
      have h0 : df.hasCol c.name = false := by simpa using h
      have := DataFrame.getCol_eq_none_of_not_hasCol h0
      unfold DataFrame.getCol at this
      exact this
    rw [h1, Option.none_or]
    simp [List.find?]

theorem withCol_colValues_ne (df : DataFrame) (c : Column) (n : String)
    (hn : n ≠ c.name) : (df.withCol c).colValues n = df.colValues n := by
  unfold DataFrame.withCol
  by_cases h : df.hasCol c.name = true
  · rw [if_pos h]
    unfold DataFrame.colValues
    rw [DataFrame.getCol_mapCols _ (replaceFun_name c)]
    cases hd : df.getCol n with
    | none => rfl
    | some d =>
      simp only [Option.map_some']
      rw [if_neg (by rw [DataFrame.getCol_name hd]; exact hn)]
  · rw [if_neg h]
    unfold DataFrame.colValues DataFrame.getCol
    rw [List.find?_append]
    have hcn : ¬(c.name = n) := fun hh => hn hh.symm
    have h2 : [c].find? (fun d => d.name = n) = none := by
      simp [List.find?, hcn]
    rw [h2]
    cases df.cols.find? (fun d => d.name = n) <;> rfl

theorem withCol_hasCol_self (df : DataFrame) (c : Column) :
    (df.withCol c).hasCol c.name = true := by
  unfold DataFrame.withCol
  by_cases h : df.hasCol c.name = true
  · rw [if_pos h, DataFrame.hasCol_mapCols _ (replaceFun_name c)]
    exact h
  · rw [if_neg h]
    unfold DataFrame.hasCol
    rw [List.any_append]
    simp [List.any]

theorem withCol_hasCol_ne (df : DataFrame) (c : Column) (n : String)
    (hn : n ≠ c.name) : (df.withCol c).hasCol n = df.hasCol n := by
  unfold DataFrame.withCol
  by_cases h : df.hasCol c.name = true
  · rw [if_pos h, DataFrame.hasCol_mapCols _ (replaceFun_name c)]
  · rw [if_neg h]
    unfold DataFrame.hasCol
    rw [List.any_append]
    have hcn : ¬(c.name = n) := fun hh => hn hh.symm
    have h2 : [c].any (fun d => d.name = n) = false := by
      simp [List.any, hcn]
    rw [h2, Bool.or_false]

theorem dropCol_find_aux (m n : String) (hn : n ≠ m) :
    ∀ cols : List Column,
      (cols.filter (fun c => c.name ≠ m)).find? (fun c => c.name = n) =
        cols.find? (fun c => c.name = n) := by
  intro cols
  induction cols with
  | nil => rfl
  | cons c cs ih =>
    by_cases hcm : c.name = m
    · have hcn : ¬(c.name = n) := by rw [hcm]; exact fun hh => hn hh.symm
      rw [List.filter_cons_of_neg (by simp [hcm]),
        List.find?_cons_of_neg _ (by simp [hcn]), ih]
    · rw [List.filter_cons_of_pos (by simp [hcm])]
      by_cases hcn : c.name = n
      · rw [List.find?_cons_of_pos _ (by simp [hcn]),
          List.find?_cons_of_pos _ (by simp [hcn])]
      · rw [List.find?_cons_of_neg _ (by simp [hcn]),
          List.find?_cons_of_neg _ (by simp [hcn]), ih]

theorem dropCol_getCol_ne (df : DataFrame) (m n : String) (hn : n ≠ m) :
    (df.dropCol m).getCol n = df.getCol n := by
  unfold DataFrame.dropCol DataFrame.getCol
  exact dropCol_find_aux m n hn df.cols

theorem dropCol_colValues_ne (df : DataFrame) (m n : String) (hn : n ≠ m) :
    (df.dropCol m).colValues n = df.colValues n := by
  unfold DataFrame.colValues
  rw [dropCol_getCol_ne df m n hn]

theorem dropCol_hasCol_self (df : DataFrame) (m : String) :
    (df.dropCol m).hasCol m = false := by
  unfold DataFrame.dropCol DataFrame.hasCol
  rw [List.any_eq_false]
  intro c hc
  have := (List.mem_filter.mp hc).2
  simp at this ⊢
  exact this

theorem dropCol_hasCol_ne (df : DataFrame) (m n : String) (hn : n ≠ m) :
    (df.dropCol m).hasCol n = df.hasCol n := by
  rw [DataFrame.hasCol_eq_isSome, DataFrame.hasCol_eq_isSome,
    dropCol_getCol_ne df m n hn]

theorem renameFind_aux (old nw : String) :
    ∀ cols : List Column, (∀ c ∈ cols, ¬(c.name = nw)) →
      ((cols.map (fun c => if c.name = old then
          (⟨nw, c.dtype, c.values⟩ : Column) else c)).find? (fun d => d.name = nw)) =
        (cols.find? (fun d => d.name = old)).map
          (fun c => ⟨nw, c.dtype, c.values⟩) := by
  intro cols
  induction cols with
  | nil => intro h; rfl
  | cons c cs ih =>
    intro h
    have hcnw : ¬(c.name = nw) := h c (List.mem_cons_self c cs)
    simp only [List.map_cons]
    by_cases hc : c.name = old
    · rw [if_pos hc]
      rw [List.find?_cons_of_pos _ (by simp), List.find?_cons_of_pos _ (by simp [hc])]
      simp
    · rw [if_neg hc]
      rw [List.find?_cons_of_neg _ (by simp [hcnw]),
        List.find?_cons_of_neg _ (by simp [hc])]
      exact ih (fun d hd => h d (List.mem_cons_of_mem _ hd))

theorem renameCol_colValues_of_absent (df : DataFrame) (old nw : String)
    (hnew : df.hasCol nw = false) :
    (df.renameCol old nw).colValues nw = df.colValues old := by
  unfold DataFrame.renameCol DataFrame.colValues DataFrame.getCol
  have hnew2 : ∀ c ∈ df.cols, ¬(c.name = nw) := by
    unfold DataFrame.hasCol at hnew
    rw [List.any_eq_false] at hnew
    intro c hc
    simpa using hnew c hc
  rw [renameFind_aux old nw df.cols hnew2]
  cases df.cols.find? (fun d => d.name = old) <;> rfl

theorem zipWith_map_same {α β γ δ : Type} (f : β → γ → δ) (g : α → β)
    (h : α → γ) (l : List α) :
    List.zipWith f (l.map g) (l.map h) = l.map (fun v => f (g v) (h v)) := by
  induction l with
  | nil => rfl
  | cons a l ih => simp [ih]

/-! ### Streak flattening -/

theorem streakLenF_int_or_null (v : Value) :
    streakLenF v = Value.null ∨ ∃ n, streakLenF v = Value.int n := by
  unfold streakLenF
  cases v with
  | list l =>
    dsimp only
    cases hl : l.get? 1 with
    | none => left; rfl
    | some w =>
      dsimp only
      split
      · right; exact ⟨_, rfl⟩
      · left; rfl
  | dict d =>
    dsimp only
    split
    · right; exact ⟨_, rfl⟩
    · left; rfl
  | null => left; rfl
  | str s => left; rfl
  | int n => left; rfl
  | float q => left; rfl

theorem castInt64_lenF (v : Value) :
    castValueF DType.utf8 (castValueF DType.int64 (streakLenF v)) =
      castValueF DType.utf8 (streakLenF v) := by
  rcases streakLenF_int_or_null v with h | ⟨n, h⟩ <;> rw [h] <;> rfl

theorem inferD_lenF_some (vs : List Value) :
    ∃ d, inferD (vs.map streakLenF) = some d := by
  unfold inferD
  by_cases hall : (vs.map streakLenF).all (fun v => isNullV v) = true
  · rw [if_pos hall]
    exact ⟨_, rfl⟩
  · rw [if_neg hall]
    have hall2 : (vs.map streakLenF).all (fun v => isNullV v) = false := by
      simpa using hall
    obtain ⟨v, hv, hvn⟩ := List.all_eq_false.mp hall2
    obtain ⟨w, hw, hvw⟩ := List.mem_map.mp hv
    rcases streakLenF_int_or_null w with hz | ⟨n, hz⟩
    · rw [hvw] at hz
      rw [hz] at hvn
      exact absurd rfl hvn
    · rw [hvw] at hz
      have hstr : (vs.map streakLenF).all (fun v => match v with
          | Value.null => true | Value.str _ => true | _ => false) = false := by
        rw [List.all_eq_false]
        exact ⟨v, hv, by rw [hz]; exact fun hh => by simp at hh⟩
      rw [if_neg (by simp [hstr])]
      have hint : (vs.map streakLenF).all (fun v => match v with
          | Value.null => true | Value.int _ => true | _ => false) = true := by
        rw [List.all_eq_true]
        intro u hu
        obtain ⟨w2, _, hw2⟩ := List.mem_map.mp hu
        rcases streakLenF_int_or_null w2 with h2 | ⟨k, h2⟩ <;>
          rw [← hw2, h2] <;> rfl
      rw [if_pos hint]
      exact ⟨_, rfl⟩

/-- C8: streak flattening.  On a frame with a `Streak` column (whose
decoded kinds infer a series dtype), the stage replaces `Streak` by one
compact string per row: the `W`/`L` letter for case-insensitive
`win`/`loss` kinds (otherwise the raw kind, null filled to the empty
string) concatenated with the decoded length (empty when absent or not
a digit string); in particular `("win","3") ↦ "W3"`,
`{"type":"loss","value":"2"} ↦ "L2"` and `{"type":"tie","value":1} ↦
"tie1"`. -/
theorem streak_flattening (df : DataFrame) (hS : df.hasCol "Streak" = true)
    (hinfT : (inferD ((df.colValues "Streak").map streakTypeF)).isSome = true) :
    ∃ out, streakStage df = Except.ok out ∧
      out.colValues "Streak" = (df.colValues "Streak").map streakFlat ∧
      streakFlat (Value.list [Value.str "win", Value.str "3"]) = Value.str "W3" ∧
      streakFlat (Value.dict [("type", Value.str "loss"), ("value", Value.str "2")]) =
        Value.str "L2" ∧
      streakFlat (Value.dict [("type", Value.str "tie"), ("value", Value.int 1)]) =
        Value.str "tie1" := by
  obtain ⟨d1, hd1⟩ := Option.isSome_iff_exists.mp hinfT
  obtain ⟨d2, hd2⟩ := inferD_lenF_some (df.colValues "Streak")
  have hm1 : mapElementsCol streakTypeF "StreakType" (df.colValues "Streak") =
      Except.ok ⟨"StreakType", d1, (df.colValues "Streak").map streakTypeF⟩ := by
    unfold mapElementsCol
    dsimp only
    rw [hd1]
  have hm2 : mapElementsCol streakLenF "StreakLen" (df.colValues "Streak") =
      Except.ok ⟨"StreakLen", d2, (df.colValues "Streak").map streakLenF⟩ := by
    unfold mapElementsCol
    dsimp only
    rw [hd2]
  unfold streakStage
  rw [if_neg (by simp [hS]), hm1, hm2]
  dsimp only
  refine ⟨_, rfl, ?_, rfl, rfl, rfl⟩
  set sv := df.colValues "Streak" with hsv
  set c1 := castColF DType.utf8 ⟨"StreakType", d1, sv.map streakTypeF⟩ with hc1
  set c2 := castColF DType.int64 ⟨"StreakLen", d2, sv.map streakLenF⟩ with hc2
  set df1 := (df.withCol c1).withCol c2 with hdf1
  set lv := (df1.colValues "StreakType").map streakLetter with hlv
  set c3 : Column := ⟨"_StreakLetter", DType.utf8, lv⟩ with hc3
  set df2 := df1.withCol c3 with hdf2
  set wv := List.zipWith
      (fun l n => concatStrV l
        (match castValueF DType.utf8 n with
         | Value.null => Value.str ""
         | u => u))
      (df2.colValues "_StreakLetter") (df2.colValues "StreakLen") with hwv
  set c4 : Column := ⟨"StreakStr", DType.utf8, wv⟩ with hc4
  set df3 := df2.withCol c4 with hdf3
  have habs : ((df3.dropCol "Streak").dropCol "_StreakLetter").hasCol "Streak" = false := by
    rw [dropCol_hasCol_ne _ _ _ (by decide)]
    exact dropCol_hasCol_self _ _
  rw [renameCol_colValues_of_absent _ _ _ habs,
    dropCol_colValues_ne _ _ _ (by decide),
    dropCol_colValues_ne _ _ _ (by decide)]
  have e5 : df3.colValues "StreakStr" = wv := by
    rw [hdf3]
    exact withCol_colValues_self df2 c4
  have eA : df2.colValues "_StreakLetter" = lv := by
    rw [hdf2]
    exact withCol_colValues_self df1 c3
  have eB : df2.colValues "StreakLen" = (sv.map streakLenF).map (castValueF DType.int64) := by
    rw [hdf2, withCol_colValues_ne df1 c3 _
      (by show ("StreakLen" : String) ≠ "_StreakLetter"; decide), hdf1]
    exact withCol_colValues_self (df.withCol c1) c2
  have eC : df1.colValues "StreakType" = (sv.map streakTypeF).map (castValueF DType.utf8) := by
    rw [hdf1, withCol_colValues_ne (df.withCol c1) c2 _
      (by show ("StreakType" : String) ≠ "StreakLen"; decide)]
    exact withCol_colValues_self df c1
  rw [e5, hwv, eA, hlv, eC, eB]
  rw [List.map_map, List.map_map, List.map_map, zipWith_map_same]
  apply List.map_congr_left
  intro v _
  simp only [Function.comp]
  unfold streakFlat
  rw [castInt64_lenF v]

/-- The claim's three example streak payloads as one `Streak` column. -/
def dfWitC8 : DataFrame :=
  ⟨[⟨"Streak", DType.struct,
    [Value.list [Value.str "win", Value.str "3"],
     Value.dict [("type", Value.str "loss"), ("value", Value.str "2")],
     Value.dict [("type", Value.str "tie"), ("value", Value.int 1)]]⟩]⟩

/-- C8 witness: the stage on the concrete three-row frame produces
exactly `W3`, `L2`, `tie1`. -/
theorem streak_flattening_witness :
    ∃ out, streakStage dfWitC8 = Except.ok out ∧
      out.colValues "Streak" =
        [Value.str "W3", Value.str "L2", Value.str "tie1"] := by
  obtain ⟨out, h1, h2, _⟩ := streak_flattening dfWitC8 rfl rfl
  exact ⟨out, h1, by rw [h2]; rfl⟩

/-! ### Outcome totals -/

theorem mapElementsCol_ok {f : Value → Value} {n : String} {src : List Value}
    {d : DType} (h : inferD (src.map f) = some d) :
    mapElementsCol f n src = Except.ok ⟨n, d, src.map f⟩ := by
  unfold mapElementsCol
  dsimp only
  rw [h]

theorem winPctFillFun_name (fromT : List Value) (c : Column) :
    (winPctFillFun fromT c).name = c.name := by
  unfold winPctFillFun
  split <;> simp_all

theorem winPctFill_colValues_self (df : DataFrame) (fromT : List Value) {c : Column}
    (h : df.getCol "WinPct" = some c) :
    DataFrame.colValues ⟨df.cols.map (winPctFillFun fromT)⟩ "WinPct" =
      List.zipWith (fun w p => if isNullV w then p else w) c.values fromT := by
  rw [DataFrame.colValues_mapCols _ (winPctFillFun_name fromT), h]
  simp only [Option.map_some', Option.elim]
  unfold winPctFillFun
  rw [if_pos (DataFrame.getCol_name h)]

theorem winPctFill_colValues_ne (df : DataFrame) (fromT : List Value) (n : String)
    (hn : n ≠ "WinPct") :
    DataFrame.colValues ⟨df.cols.map (winPctFillFun fromT)⟩ n = df.colValues n := by
  rw [DataFrame.colValues_mapCols _ (winPctFillFun_name fromT)]
  unfold DataFrame.colValues
  cases hg : df.getCol n with
  | none => rfl
  | some c =>
    simp only [Option.map_some', Option.elim]
    unfold winPctFillFun
    rw [if_neg (by rw [DataFrame.getCol_name hg]; exact hn)]

/-- C7: outcome-totals decoding with an existing `WinPct` column.  The
decoded wins/losses/ties appear as `Int64`-cast columns, and `WinPct`
is filled from the decoded percentage only in rows where it was null:
every row with a non-null `WinPct` keeps its original value. -/
theorem outcome_totals_fill (df : DataFrame)
    (hot : df.hasCol "outcome_totals" = true)
    (hwp : df.hasCol "WinPct" = true)
    (hi0 : (inferD ((df.colValues "outcome_totals").map (otField 0 "wins"))).isSome = true)
    (hi1 : (inferD ((df.colValues "outcome_totals").map (otField 1 "losses"))).isSome = true)
    (hi2 : (inferD ((df.colValues "outcome_totals").map (otField 2 "ties"))).isSome = true)
    (hi3 : (inferD ((df.colValues "outcome_totals").map
      (otField 3 "percentage"))).isSome = true) :
    ∃ out, outcomeStage df = Except.ok out ∧
      out.colValues "WinPct" = List.zipWith
        (fun w p => if isNullV w then
            castValueF DType.float64 (otField 3 "percentage" p)
          else w)
        (df.colValues "WinPct") (df.colValues "outcome_totals") ∧
      out.colValues "wins" = (df.colValues "outcome_totals").map
        (fun p => castValueF DType.int64 (otField 0 "wins" p)) ∧
      out.colValues "losses" = (df.colValues "outcome_totals").map
        (fun p => castValueF DType.int64 (otField 1 "losses" p)) ∧
      out.colValues "ties" = (df.colValues "outcome_totals").map
        (fun p => castValueF DType.int64 (otField 2 "ties" p)) := by
  obtain ⟨e0, he0⟩ := Option.isSome_iff_exists.mp hi0
  obtain ⟨e1, he1⟩ := Option.isSome_iff_exists.mp hi1
  obtain ⟨e2, he2⟩ := Option.isSome_iff_exists.mp hi2
  obtain ⟨e3, he3⟩ := Option.isSome_iff_exists.mp hi3
  unfold outcomeStage
  rw [if_neg (by simp [hot]), mapElementsCol_ok he0, mapElementsCol_ok he1,
    mapElementsCol_ok he2, mapElementsCol_ok he3]
  dsimp only
  set ot := df.colValues "outcome_totals" with hot2
  set wc : Column := ⟨"wins", e0, ot.map (otField 0 "wins")⟩ with hwc
  set lc : Column := ⟨"losses", e1, ot.map (otField 1 "losses")⟩ with hlc
  set tc : Column := ⟨"ties", e2, ot.map (otField 2 "ties")⟩ with htc
  set pc : Column := ⟨"percentage", e3, ot.map (otField 3 "percentage")⟩ with hpc
  set df1 := (((df.withCol wc).withCol lc).withCol tc).withCol pc with hdf1
  set wc2 := castColF DType.int64 wc with hwc2
  set lc2 := castColF DType.int64 lc with hlc2
  set tc2 := castColF DType.int64 tc with htc2
  set fc : Column := ⟨"WinPctFromTotals", DType.float64,
    pc.values.map (castValueF DType.float64)⟩ with hfc
  set df2 := (((df1.withCol wc2).withCol lc2).withCol tc2).withCol fc with hdf2
  set df3 := df2.dropCol "outcome_totals" with hdf3
  have hWP3 : df3.hasCol "WinPct" = true := by
    rw [hdf3, dropCol_hasCol_ne _ _ _ (by decide), hdf2,
      withCol_hasCol_ne _ _ _ (by show ("WinPct" : String) ≠ "WinPctFromTotals"; decide),
      withCol_hasCol_ne _ _ _ (by show ("WinPct" : String) ≠ "ties"; decide),
      withCol_hasCol_ne _ _ _ (by show ("WinPct" : String) ≠ "losses"; decide),
      withCol_hasCol_ne _ _ _ (by show ("WinPct" : String) ≠ "wins"; decide),
      hdf1,
      withCol_hasCol_ne _ _ _ (by show ("WinPct" : String) ≠ "percentage"; decide),
      withCol_hasCol_ne _ _ _ (by show ("WinPct" : String) ≠ "ties"; decide),
      withCol_hasCol_ne _ _ _ (by show ("WinPct" : String) ≠ "losses"; decide),
      withCol_hasCol_ne _ _ _ (by show ("WinPct" : String) ≠ "wins"; decide)]
    exact hwp
  rw [if_pos hWP3]
  refine ⟨_, rfl, ?_, ?_, ?_, ?_⟩
  · obtain ⟨c, hc⟩ := Option.isSome_iff_exists.mp (DataFrame.getCol_isSome_of_hasCol hWP3)
    have hcv : c.values = df.colValues "WinPct" := by
      have h1 : df3.colValues "WinPct" = c.values := by
        unfold DataFrame.colValues
        rw [hc]
      rw [← h1, hdf3, dropCol_colValues_ne _ _ _ (by decide), hdf2,
        withCol_colValues_ne _ _ _ (by show ("WinPct" : String) ≠ "WinPctFromTotals"; decide),
        withCol_colValues_ne _ _ _ (by show ("WinPct" : String) ≠ "ties"; decide),
        withCol_colValues_ne _ _ _ (by show ("WinPct" : String) ≠ "losses"; decide),
        withCol_colValues_ne _ _ _ (by show ("WinPct" : String) ≠ "wins"; decide),
        hdf1,
        withCol_colValues_ne _ _ _ (by show ("WinPct" : String) ≠ "percentage"; decide),
        withCol_colValues_ne _ _ _ (by show ("WinPct" : String) ≠ "ties"; decide),
        withCol_colValues_ne _ _ _ (by show ("WinPct" : String) ≠ "losses"; decide),
        withCol_colValues_ne _ _ _ (by show ("WinPct" : String) ≠ "wins"; decide)]
    have hfromT : df3.colValues "WinPctFromTotals" =
        ot.map (fun p => castValueF DType.float64 (otField 3 "percentage" p)) := by
      rw [hdf3, dropCol_colValues_ne _ _ _ (by decide), hdf2]
      have hself : ((((df1.withCol wc2).withCol lc2).withCol tc2).withCol fc).colValues
          "WinPctFromTotals" = fc.values := withCol_colValues_self _ fc
      rw [hself, hfc, hpc]
      show (ot.map (otField 3 "percentage")).map (castValueF DType.float64) = _
      rw [List.map_map]
      rfl
    rw [dropCol_colValues_ne _ _ _ (by decide),
      winPctFill_colValues_self df3 _ hc, hfromT, hcv, List.zipWith_map_right]
  · rw [dropCol_colValues_ne _ _ _ (by decide),
      winPctFill_colValues_ne _ _ _ (by decide), hdf3,
      dropCol_colValues_ne _ _ _ (by decide), hdf2,
      withCol_colValues_ne _ _ _ (by show ("wins" : String) ≠ "WinPctFromTotals"; decide),
      withCol_colValues_ne _ _ _ (by show ("wins" : String) ≠ "ties"; decide),
      withCol_colValues_ne _ _ _ (by show ("wins" : String) ≠ "losses"; decide)]
    have hself : (df1.withCol wc2).colValues "wins" = wc2.values :=
      withCol_colValues_self df1 wc2
    rw [hself, hwc2, hwc]
    show (ot.map (otField 0 "wins")).map (castValueF DType.int64) = _
    rw [List.map_map]
    rfl
  · rw [dropCol_colValues_ne _ _ _ (by decide),
      winPctFill_colValues_ne _ _ _ (by decide), hdf3,
      dropCol_colValues_ne _ _ _ (by decide), hdf2,
      withCol_colValues_ne _ _ _ (by show ("losses" : String) ≠ "WinPctFromTotals"; decide),
      withCol_colValues_ne _ _ _ (by show ("losses" : String) ≠ "ties"; decide)]
    have hself : ((df1.withCol wc2).withCol lc2).colValues "losses" = lc2.values :=
      withCol_colValues_self _ lc2
    rw [hself, hlc2, hlc]
    show (ot.map (otField 1 "losses")).map (castValueF DType.int64) = _
    rw [List.map_map]
    rfl
  · rw [dropCol_colValues_ne _ _ _ (by decide),
      winPctFill_colValues_ne _ _ _ (by decide), hdf3,
      dropCol_colValues_ne _ _ _ (by decide), hdf2,
      withCol_colValues_ne _ _ _ (by show ("ties" : String) ≠ "WinPctFromTotals"; decide)]
    have hself : (((df1.withCol wc2).withCol lc2).withCol tc2).colValues "ties" = tc2.values :=
      withCol_colValues_self _ tc2
    rw [hself, htc2, htc]
    show (ot.map (otField 2 "ties")).map (castValueF DType.int64) = _
    rw [List.map_map]
    rfl

/-- A two-row standings frame: one row with null `WinPct` and the
claim's example payload, one row with a non-null `WinPct`. -/
def dfWitC7 : DataFrame :=
  ⟨[⟨"WinPct", DType.float64, [Value.null, Value.float (1/2)]⟩,
    ⟨"outcome_totals", DType.struct,
      [Value.dict [("wins", Value.int 5), ("losses", Value.int 2),
        ("ties", Value.int 1), ("percentage", Value.str "0.7")],
       Value.dict [("wins", Value.int 4), ("losses", Value.int 3),
        ("ties", Value.int 0), ("percentage", Value.str "0.5")]]⟩]⟩

theorem castF_decimal_07 :
    castValueF DType.float64 (Value.str "0.7") = Value.float (7/10) := by
  show Value.float (((0 : Nat) : ℚ) + ((7 : Nat) : ℚ) / (10 : ℚ) ^ (1 : Nat)) =
    Value.float (7/10)
  norm_num

/-- C7 witness: on the concrete frame, the null `WinPct` row is filled
with the decoded `0.7` and the non-null row keeps its original `0.5`;
wins/losses/ties are decoded as integers. -/
theorem outcome_totals_fill_witness :
    ∃ out, outcomeStage dfWitC7 = Except.ok out ∧
      out.colValues "WinPct" = [Value.float (7/10), Value.float (1/2)] ∧
      out.colValues "wins" = [Value.int 5, Value.int 4] ∧
      out.colValues "losses" = [Value.int 2, Value.int 3] ∧
      out.colValues "ties" = [Value.int 1, Value.int 0] := by
  obtain ⟨out, h1, h2, h3, h4, h5⟩ :=
    outcome_totals_fill dfWitC7 rfl rfl rfl rfl rfl rfl
  refine ⟨out, h1, ?_, by rw [h3]; rfl, by rw [h4]; rfl, by rw [h5]; rfl⟩
  rw [h2]
  show [castValueF DType.float64 (Value.str "0.7"), Value.float (1/2)] =
    [Value.float (7/10), Value.float (1/2)]
  rw [castF_decimal_07]

/-! ### List materialization -/

/-- C9: materializing a column maps every value — sequences to the
comma-join of their stringified elements, null passed through, scalar
strings unchanged — and re-types the column as text (`Utf8`). -/
theorem materialize_column (df : DataFrame) (n : String) {c : Column}
    (h : df.getCol n = some c) :
    (materializeCol n df).getCol n =
        some ⟨n, DType.utf8, c.values.map materializeValue⟩ ∧
    (∀ vs, materializeValue (Value.list vs) =
        Value.str (String.intercalate "," (vs.map pyStr))) ∧
    materializeValue Value.null = Value.null ∧
    (∀ s, materializeValue (Value.str s) = Value.str s) :=
  ⟨materializeCol_getCol_self h, fun vs => rfl, rfl, fun s => rfl⟩

/-- A one-column frame holding a list value, a null and a bare scalar. -/
def dfWitC9 : DataFrame :=
  ⟨[⟨"player_positions", DType.listU,
    [Value.list [Value.str "QB", Value.str "WR"], Value.null, Value.str "QB"]⟩]⟩

/-- C9 witness: the claim's three examples, materialized in one concrete
column: `["QB","WR"]` becomes `"QB,WR"`, null stays null, `"QB"` stays
`"QB"`, and the column is re-typed as text. -/
theorem materialize_column_witness :
    (materializeCol "player_positions" dfWitC9).getCol "player_positions" =
      some ⟨"player_positions", DType.utf8,
        [Value.str "QB,WR", Value.null, Value.str "QB"]⟩ :=
  (materialize_column dfWitC9 "player_positions" rfl).1

end YahooFF
